import Mathlib

/-!
Verification of the OData v4 `ODataMetaModel` path-resolution engine and the
RTA `AdditionalElementsPlugin` orchestration logic of this repository.

The meta-model code (`ODataMetaModel.js`) walks dynamically-typed JSON-like
metadata, so the embedding works over a JSON value type `JVal`.  JavaScript
semantics that matter here are modelled explicitly: property access on
non-objects yields `undefined` (`Option.none`), while the `in` operator throws
a `TypeError` on primitive values; `Object.keys` counts own enumerable keys
(array indices and string positions included); truthiness of values follows
JavaScript rules.

The `_ODataHelper` module is not part of the sources; its functions
(`splitPath`, `parseSegment`, `findInArray`, `requestTypeForNavigationProperty`)
are modelled from the spec and from their documented usage, and are marked
as such below.

All string manipulation is done with char-list based helpers so that every
definition evaluates inside the kernel (witnesses use `rfl`/`decide`).
-/

namespace OData

/-- A JavaScript/JSON value as it appears in the OData metadata documents.
`null`/`undefined` do not occur in the metadata handled here; an absent
property is represented by `Option.none` at the access sites. -/
inductive JVal where
  | str (s : String)
  | num (n : Int)
  | bool (b : Bool)
  | arr (elems : List JVal)
  | obj (fields : List (String × JVal))

/-- Lookup of an own property in a JS object's field list (first match). -/
def objLookup : List (String × JVal) → String → Option JVal
  | [], _ => none
  | (k, v) :: rest, key => if k == key then some v else objLookup rest key

/-- Is the string a non-empty digit sequence (the `rNumber` regex `/^\d+$/`). -/
def isNumStr (s : String) : Bool := !s.data.isEmpty && s.data.all (fun c => c.isDigit)

/-- Numeric value of a digit string (used for array indexing). -/
def natOfCharsAux : List Char → Nat → Nat
  | [], acc => acc
  | c :: cs, acc => natOfCharsAux cs (acc * 10 + (c.toNat - 48))

def natOfStr (s : String) : Nat := natOfCharsAux s.data 0

/-- JavaScript property read `o[k]`: own field of an object, numeric index of
an array; reading a property of a primitive yields `undefined` (`none`).
(Prototype-chain properties are not modelled; the metadata objects are plain.) -/
def getJs : JVal → String → Option JVal
  | .obj fs, k => objLookup fs k
  | .arr xs, k => if isNumStr k then xs.get? (natOfStr k) else none
  | _, _ => none

/-- Errors a promise can be rejected with: `new Error(msg)` thrown by the
meta model's own `error` helper, or a `TypeError` raised by the JS runtime. -/
inductive JsErr where
  | error (msg : String)
  | typeError (msg : String)

/-- The JS `in` operator: key membership for objects, index membership for
arrays, and a `TypeError` on primitive values. -/
def inOp (k : String) : JVal → Except JsErr Bool
  | .obj fs => .ok (objLookup fs k).isSome
  | .arr xs => .ok (isNumStr k && decide (natOfStr k < xs.length))
  | _ => .error (.typeError ("Cannot use 'in' operator to search for '" ++ k ++ "'"))

/-- `Object.keys(v).length`: own enumerable keys.  Arrays contribute their
indices and strings their character positions; numbers and booleans have
no own enumerable keys. -/
def keysCount : JVal → Nat
  | .obj fs => fs.length
  | .arr xs => xs.length
  | .str s => s.data.length
  | _ => 0

/-- JavaScript truthiness. -/
def truthy : JVal → Bool
  | .str s => !s.data.isEmpty
  | .num n => n != 0
  | .bool b => b
  | .arr _ => true
  | .obj _ => true

def truthyOpt : Option JVal → Bool
  | some v => truthy v
  | none => false

/-- JavaScript `String(v)` coercion, for the values that occur here. -/
def jsToString : Option JVal → String
  | some (.str s) => s
  | some (.num n) => toString n
  | some (.bool b) => if b then "true" else "false"
  | some (.arr _) => ""
  | some (.obj _) => "[object Object]"
  | none => "undefined"

/-- The condition of the lazy-load check in `requestObject`'s `followPath`:
`typeof v === "object" && !Array.isArray(v) && Object.keys(v).length === 1`. -/
def isPlaceholder : JVal → Bool
  | .obj fs => fs.length == 1
  | _ => false

/-- Split a string into path segments.  Modelled from the spec:
`_ODataHelper.splitPath` turns a slash-delimited path such as
`"/TEAMS/0/Name"` into its segment list. -/
def splitSegAux : List Char → List Char → List String
  | [], acc => if acc.isEmpty then [] else [String.mk acc.reverse]
  | c :: cs, acc =>
    if c == '/' then
      (if acc.isEmpty then splitSegAux cs [] else String.mk acc.reverse :: splitSegAux cs [])
    else splitSegAux cs (c :: acc)

def splitPath (s : String) : List String := splitSegAux s.data []

/-- A parsed path segment: `"EntitySets('Employees')"` has property
`"EntitySets"` and name `"Employees"`; a plain segment has no name. -/
structure PathPart where
  property : String
  name : Option String
  segment : String

/-- The single-quote character (written numerically). -/
def aposChar : Char := Char.ofNat 39

/-- Find the first occurrence of the two-char opening quote-paren in a
segment, returning the part before it and the part after it. -/
def splitParen : List Char → Option (List Char × List Char)
  | [] => none
  | c :: cs =>
    if c == '(' then
      match cs with
      | c2 :: rest =>
        if c2 == aposChar then some ([], rest)
        else
          match splitParen cs with
          | some (pre, post) => some (c :: pre, post)
          | none => none
      | [] => none
    else
      match splitParen cs with
      | some (pre, post) => some (c :: pre, post)
      | none => none

/-- Does the char list end with a quote followed by a closing paren?  If so
return the chars before them. -/
def dropCloseQuote (cs : List Char) : Option (List Char) :=
  match cs.reverse with
  | c1 :: c2 :: rest =>
    if c1 == ')' && c2 == aposChar then some rest.reverse else none
  | _ => none

/-- Modelled from the spec: `_ODataHelper.parseSegment` splits a segment like
`"EntitySets('Employees')"` into property and name; any other segment is a
plain property access. -/
def parseSegment (s : String) : PathPart :=
  match splitParen s.data with
  | some (pre, post) =>
    match dropCloseQuote post with
    | some nameChars => ⟨String.mk pre, some (String.mk nameChars), s⟩
    | none => ⟨s, none, s⟩
  | none => ⟨s, none, s⟩

/-- Modelled from the spec: `_ODataHelper.findInArray` returns the first
element of the array whose property `key` equals the string `val`. -/
def findInArray (xs : List JVal) (key val : String) : Option JVal :=
  xs.find? (fun v =>
    match getJs v key with
    | some (.str s) => s == val
    | _ => false)

/-- An environment resolving qualified type names to their full metadata
objects; it stands for the metadata document available to the loader. -/
def Env := String → JVal

/-- Modelled from the spec: `_ODataHelper.requestTypeForNavigationProperty`
lazily loads a not-yet-resolved navigation target type.  When `o[p]` is an
unresolved placeholder (a single own key, its `QualifiedName`), it yields the
full type from the metadata; otherwise it yields the already-present object. -/
def requestTypeForNavigationProperty (env : Env) (o : JVal) (p : String) : JVal :=
  match getJs o p with
  | some t => if keysCount t == 1 then env (jsToString (getJs t "QualifiedName")) else t
  | none => env "undefined"

/-! ### `ODataMetaModel.prototype.requestObject` -/

/-- Outcome of a `requestObject` walk, together with the values reached by
plain (unnamed) segments (`visited`) and the values for which the lazy type
load `Helper.requestTypeForNavigationProperty` was triggered (`loads`). -/
structure ObjOut where
  result : Except JsErr JVal
  visited : List JVal
  loads : List JVal

def errObj (e : JsErr) : ObjOut := ⟨.error e, [], []⟩

def consTrace (v : JVal) (load : Bool) (o : ObjOut) : ObjOut :=
  ⟨o.result, v :: o.visited, if load then v :: o.loads else o.loads⟩

/-- The `followPath` loop of `ODataMetaModel.prototype.requestObject`:
consume segments one by one; a missing property raises `Unknown <segment>`,
a `Property('Name')` segment requires an array and a matching element, and a
plain segment whose value is an unresolved placeholder triggers the lazy type
load before the walk resumes on its result. -/
def followPath (env : Env) (sPath : String) : List String → JVal → ObjOut
  | [], o => ⟨.ok o, [], []⟩
  | seg :: rest, o =>
    match inOp (parseSegment seg).property o with
    | .error e => errObj e
    | .ok false => errObj (.error ("Unknown " ++ seg ++ ": " ++ sPath))
    | .ok true =>
      match (parseSegment seg).name with
      | some nm =>
        -- the `in` check succeeded, so the property read yields a value
        match (getJs o (parseSegment seg).property).getD (.bool false) with
        | .arr xs =>
          match findInArray xs "Name" nm with
          | some o2 => followPath env sPath rest o2
          | none => errObj (.error ("Unknown " ++ seg ++ ": " ++ sPath))
        | _ => errObj (.error ("\"" ++ (parseSegment seg).property ++ "\" is not an array: " ++ sPath))
      | none =>
        if isPlaceholder ((getJs o (parseSegment seg).property).getD (.bool false)) then
          consTrace ((getJs o (parseSegment seg).property).getD (.bool false)) true
            (followPath env sPath rest (requestTypeForNavigationProperty env o (parseSegment seg).property))
        else
          consTrace ((getJs o (parseSegment seg).property).getD (.bool false)) false
            (followPath env sPath rest ((getJs o (parseSegment seg).property).getD (.bool false)))

/-- `ODataMetaModel.prototype.requestObject`, with the resolved path given
directly (`""` standing for an empty or undefined resolution result) and the
entity container supplied by the loader. -/
def requestObjectT (env : Env) (container : JVal) (sResolvedPath : String) : ObjOut :=
  if sResolvedPath == "" then errObj (.error ("Not an absolute path: " ++ sResolvedPath))
  else followPath env sResolvedPath (splitPath sResolvedPath) container

def requestObject (env : Env) (container : JVal) (sResolvedPath : String) : Except JsErr JVal :=
  (requestObjectT env container sResolvedPath).result

/-! ### `ODataMetaModel.prototype.requestMetaContext` -/

/-- Outcome of a `requestMetaContext` resolution: the meta path of the
resulting context, with the same lazy-load trace as `ObjOut` (the `Type`
values encountered at the type-walk switch points, and those among them for
which the lazy load fired). -/
structure MetaOut where
  result : Except JsErr String
  visited : List JVal
  loads : List JVal

def errMeta (e : JsErr) : MetaOut := ⟨.error e, [], []⟩

def consTraceM (v : JVal) (load : Bool) (o : MetaOut) : MetaOut :=
  ⟨o.result, v :: o.visited, if load then v :: o.loads else o.loads⟩

/-- `findChild` of `requestMetaContext`: search the given properties (arrays
of named children) of the object for a child with the given `Name`; on
success return the child and the property it was found in.  The caller
extends the meta path by `"/<property>('<Name>')"` (the found child's `Name`
equals the searched name, since `findInArray` matched on it). -/
def findChild (o : JVal) : List String → String → Option (JVal × String)
  | [], _ => none
  | p :: ps, nm =>
    match getJs o p with
    | some (.arr xs) =>
      (match findInArray xs "Name" nm with
       | some child => some (child, p)
       | none => findChild o ps nm)
    | _ => findChild o ps nm

/-- `findSetOrSingleton` without the throw: the EntitySet or Singleton of the
entity container with the given name, and which of the two lists held it. -/
def findSetOrSingleton (container : JVal) (nm : String) : Option (JVal × String) :=
  findChild container ["EntitySets", "Singletons"] nm

/-- The regex `rEntitySetName = /^(\w+)(\[|\(|$)/`: the leading identifier of
the first segment, accepted only when followed by `[`, `(` or the end. -/
def isWordChar (c : Char) : Bool := c.isAlphanum || c == '_'

def identPrefix (s : String) : Option String :=
  let w := s.data.takeWhile isWordChar
  if w.isEmpty then none
  else
    match s.data.drop w.length with
    | [] => some (String.mk w)
    | c :: _ => if c == '[' || c == '(' then some (String.mk w) else none

/-- The `followPath` loop of `requestMetaContext`: match each segment against
the type's `Properties` and `NavigationProperties` (extending the meta path),
skip a following numeric index segment, and at each continuation append
`"/Type"` and lazily load the property's type exactly when
`Object.keys(oProperty.Type).length === 1`. -/
def followTy (container : JVal) (env : Env) (sPath : String) :
    List String → JVal → String → MetaOut
  | [], _, mp => ⟨.ok mp, [], []⟩
  | [seg], ty, mp =>
    match findChild ty ["Properties", "NavigationProperties"] seg with
    | none =>
      errMeta (.error ("Unknown property: " ++ jsToString (getJs ty "QualifiedName")
        ++ "/" ++ seg ++ ": " ++ sPath))
    | some (_, p) => ⟨.ok (mp ++ "/" ++ p ++ "('" ++ seg ++ "')"), [], []⟩
  | seg :: r0 :: rest1, ty, mp =>
    match findChild ty ["Properties", "NavigationProperties"] seg with
    | none =>
      errMeta (.error ("Unknown property: " ++ jsToString (getJs ty "QualifiedName")
        ++ "/" ++ seg ++ ": " ++ sPath))
    | some (prop, p) =>
      if isNumStr r0 then
        match rest1 with
        | [] => ⟨.ok (mp ++ "/" ++ p ++ "('" ++ seg ++ "')"), [], []⟩
        | _ =>
          match getJs prop "Type" with
          | none => errMeta (.typeError "Cannot convert undefined or null to object")
          | some tyv =>
            if keysCount tyv == 1 then
              consTraceM tyv true
                (followTy container env sPath rest1
                  (requestTypeForNavigationProperty env prop "Type")
                  (mp ++ "/" ++ p ++ "('" ++ seg ++ "')" ++ "/Type"))
            else
              consTraceM tyv false
                (followTy container env sPath rest1 tyv
                  (mp ++ "/" ++ p ++ "('" ++ seg ++ "')" ++ "/Type"))
      else
        match getJs prop "Type" with
        | none => errMeta (.typeError "Cannot convert undefined or null to object")
        | some tyv =>
          if keysCount tyv == 1 then
            consTraceM tyv true
              (followTy container env sPath (r0 :: rest1)
                (requestTypeForNavigationProperty env prop "Type")
                (mp ++ "/" ++ p ++ "('" ++ seg ++ "')" ++ "/Type"))
          else
            consTraceM tyv false
              (followTy container env sPath (r0 :: rest1) tyv
                (mp ++ "/" ++ p ++ "('" ++ seg ++ "')" ++ "/Type"))

/-- The entity-container loop of `requestMetaContext`: starting from the
EntitySet or Singleton matched by the first segment, follow
`NavigationPropertyBindings` (appending `"/NavigationPropertyBindings('…')"`
and `"/Target"` per matched binding, resolving the target set or singleton
by the binding target's `Name`), skipping numeric index segments; once a
segment is not a binding, append `"/EntityType"` (entity sets) or `"/Type"`
(singletons), request that type and continue with `followTy`. -/
def containerLoop (container : JVal) (env : Env) (sPath : String) :
    List String → JVal → String → String → MetaOut
  | [], _, _, mp => ⟨.ok mp, [], []⟩
  | [s0], cur, curProp, mp =>
    if isNumStr s0 then ⟨.ok mp, [], []⟩
    else
      match findChild cur ["NavigationPropertyBindings"] s0 with
      | none =>
        followTy container env sPath [s0]
          (requestTypeForNavigationProperty env cur
            (if curProp == "EntitySets" then "EntityType" else "Type"))
          (mp ++ "/" ++ (if curProp == "EntitySets" then "EntityType" else "Type"))
      | some (bnd, _) =>
        match getJs bnd "Target" with
        | none => errMeta (.typeError "Cannot read properties of undefined (reading 'Name')")
        | some tv =>
          if truthyOpt (getJs tv "Name") then
            match findSetOrSingleton container (jsToString (getJs tv "Name")) with
            | none =>
              errMeta (.error ("No EntitySet or Singleton with name '"
                ++ jsToString (getJs tv "Name") ++ "' found: " ++ sPath))
            | some (_, _) =>
              -- no segments remain after the matched binding: the loop's next
              -- round returns the meta path extended by the binding and Target
              ⟨.ok (mp ++ "/NavigationPropertyBindings('" ++ s0 ++ "')/Target"), [], []⟩
          else errMeta (.error ("Unsupported cross-service reference: " ++ sPath))
  | s0 :: s1 :: rest1, cur, curProp, mp =>
    if isNumStr s0 then
      match findChild cur ["NavigationPropertyBindings"] s1 with
      | none =>
        followTy container env sPath (s1 :: rest1)
          (requestTypeForNavigationProperty env cur
            (if curProp == "EntitySets" then "EntityType" else "Type"))
          (mp ++ "/" ++ (if curProp == "EntitySets" then "EntityType" else "Type"))
      | some (bnd, _) =>
        match getJs bnd "Target" with
        | none => errMeta (.typeError "Cannot read properties of undefined (reading 'Name')")
        | some tv =>
          if truthyOpt (getJs tv "Name") then
            match findSetOrSingleton container (jsToString (getJs tv "Name")) with
            | none =>
              errMeta (.error ("No EntitySet or Singleton with name '"
                ++ jsToString (getJs tv "Name") ++ "' found: " ++ sPath))
            | some (nxt, nxtProp) =>
              containerLoop container env sPath rest1 nxt nxtProp
                (mp ++ "/NavigationPropertyBindings('" ++ s1 ++ "')/Target")
          else errMeta (.error ("Unsupported cross-service reference: " ++ sPath))
    else
      match findChild cur ["NavigationPropertyBindings"] s0 with
      | none =>
        followTy container env sPath (s0 :: s1 :: rest1)
          (requestTypeForNavigationProperty env cur
            (if curProp == "EntitySets" then "EntityType" else "Type"))
          (mp ++ "/" ++ (if curProp == "EntitySets" then "EntityType" else "Type"))
      | some (bnd, _) =>
        match getJs bnd "Target" with
        | none => errMeta (.typeError "Cannot read properties of undefined (reading 'Name')")
        | some tv =>
          if truthyOpt (getJs tv "Name") then
            match findSetOrSingleton container (jsToString (getJs tv "Name")) with
            | none =>
              errMeta (.error ("No EntitySet or Singleton with name '"
                ++ jsToString (getJs tv "Name") ++ "' found: " ++ sPath))
            | some (nxt, nxtProp) =>
              containerLoop container env sPath (s1 :: rest1) nxt nxtProp
                (mp ++ "/NavigationPropertyBindings('" ++ s0 ++ "')/Target")
          else errMeta (.error ("Unsupported cross-service reference: " ++ sPath))

/-- `ODataMetaModel.prototype.requestMetaContext`: split the path, match the
first segment with `rEntitySetName`, look it up as an EntitySet or Singleton
(rejecting with an error naming the missing one), then run the container
loop.  The resulting context is identified by its meta path. -/
def requestMetaContextT (container : JVal) (env : Env) (sPath : String) : MetaOut :=
  match splitPath sPath with
  | [] => errMeta (.error ("Unsupported: " ++ sPath))
  | s0 :: rest =>
    match identPrefix s0 with
    | none => errMeta (.error ("Unsupported: " ++ sPath))
    | some nm =>
      match findSetOrSingleton container nm with
      | none =>
        errMeta (.error ("No EntitySet or Singleton with name '" ++ nm ++ "' found: " ++ sPath))
      | some (setObj, p) =>
        containerLoop container env sPath rest setObj p ("/" ++ p ++ "('" ++ nm ++ "')")

def requestMetaContext (container : JVal) (env : Env) (sPath : String) :
    Except JsErr String :=
  (requestMetaContextT container env sPath).result

/-! ### `ODataMetaModel.prototype.requestUI5Type` -/

/-- Generic association-list lookup with string keys (a JS object viewed as a
map). -/
def assocLookup {α : Type} : List (String × α) → String → Option α
  | [], _ => none
  | (k, v) :: rest, key => if k == key then some v else assocLookup rest key

/-- JS object key update: replace the value in place if the key exists,
append otherwise (JS objects keep the first-insertion order of keys). -/
def upsert {α : Type} : List (String × α) → String → α → List (String × α)
  | [], k, v => [(k, v)]
  | (k', v') :: rest, k, v =>
    if k' == k then (k, v) :: rest else (k', v') :: upsert rest k v

/-- One entry of `mUi5TypeForEdmType`: the UI5 type name and the map from EDM
facet names to constraint keys (an empty map models an absent `facets`
property, which behaves identically). -/
structure Ui5TypeEntry where
  type : String
  facets : List (String × String)

/-- The static map `mUi5TypeForEdmType` of `ODataMetaModel.js` (the
`Edm.DateTimeOffset` entry is commented out in the source). -/
def mUi5TypeForEdmType : List (String × Ui5TypeEntry) := [
  ("Edm.Boolean", ⟨"sap.ui.model.odata.type.Boolean", []⟩),
  ("Edm.Byte", ⟨"sap.ui.model.odata.type.Byte", []⟩),
  ("Edm.Date", ⟨"sap.ui.model.odata.type.Date", []⟩),
  ("Edm.Decimal", ⟨"sap.ui.model.odata.type.Decimal",
    [("Precision", "precision"), ("Scale", "scale")]⟩),
  ("Edm.Double", ⟨"sap.ui.model.odata.type.Double", []⟩),
  ("Edm.Guid", ⟨"sap.ui.model.odata.type.Guid", []⟩),
  ("Edm.Int16", ⟨"sap.ui.model.odata.type.Int16", []⟩),
  ("Edm.Int32", ⟨"sap.ui.model.odata.type.Int32", []⟩),
  ("Edm.Int64", ⟨"sap.ui.model.odata.type.Int64", []⟩),
  ("Edm.SByte", ⟨"sap.ui.model.odata.type.SByte", []⟩),
  ("Edm.Single", ⟨"sap.ui.model.odata.type.Single", []⟩),
  ("Edm.String", ⟨"sap.ui.model.odata.type.String", [("MaxLength", "maxLength")]⟩)]

/-- Constraint objects: keys mapped to JS values (a `none` value models an
`undefined` facet `Value`).  The whole object is `none` until the first
`setConstraint` call, modelling the initially `undefined` `oConstraints`. -/
def setConstraint (cs : Option (List (String × Option JVal))) (k : String) (v : Option JVal) :
    Option (List (String × Option JVal)) :=
  some (upsert (cs.getD []) k v)

/-- The elements iterated by the facet loop: an array's `length` drives the
loop over its elements; for a string the loop visits its characters, which have
no `Name` property, so no constraint is ever applied and the empty list is an
exact model; for primitives and plain objects `length` is undefined, the
`i < undefined` comparison is false and the loop body never runs (an array-like
object carrying its own `length` key is not well-formed CSDL metadata and is
not modelled). -/
def facetsList : Option JVal → List JVal
  | some (.arr xs) => xs
  | _ => []

/-- The UI5 type object returned by `requestUI5Type`: the constructor looked
up from the `type` name, applied to the derived constraints. -/
structure Ui5Type where
  typeName : String
  constraints : Option (List (String × Option JVal))

/-- The facet loop of `requestUI5Type`: for each facet whose `Name` occurs in
the UI5 type's facet map, set the mapped constraint to the facet's `Value`. -/
def facetLoop (m : List (String × String)) (fs : List JVal)
    (cs : Option (List (String × Option JVal))) : Option (List (String × Option JVal)) :=
  fs.foldl (fun cs f =>
    match assocLookup m (jsToString (getJs f "Name")) with
    | some key => setConstraint cs key (getJs f "Value")
    | none => cs) cs

/-- `ODataMetaModel.prototype.requestUI5Type`: resolve the meta context of
the path, read the property descriptor, require its `Type`, `Facets` and
`Nullable` properties, map the EDM type through `mUi5TypeForEdmType`, derive
constraints from the matching facets and from `Nullable`, and build the type
object. -/
def requestUI5Type (container : JVal) (env : Env) (sPath : String) : Except JsErr Ui5Type := do
  let mp ← requestMetaContext container env sPath
  let p ← requestObject env container mp
  let hasT ← inOp "Type" p
  let hasF ← inOp "Facets" p
  let hasN ← inOp "Nullable" p
  if !(hasT && hasF && hasN) then
    throw (.error ("No property: " ++ sPath))
  else
    -- `"Type" in oProperty` succeeded, so the read yields a value
    match assocLookup mUi5TypeForEdmType
        (jsToString (getJs ((getJs p "Type").getD (.bool false)) "QualifiedName")) with
    | none =>
      throw (.error ("Unsupported EDM type: "
        ++ jsToString (getJs ((getJs p "Type").getD (.bool false)) "QualifiedName")
        ++ ": " ++ sPath))
    | some u =>
      if truthyOpt (getJs p "Nullable") then
        pure ⟨u.type, facetLoop u.facets (facetsList (getJs p "Facets")) none⟩
      else
        pure ⟨u.type,
          setConstraint (facetLoop u.facets (facetsList (getJs p "Facets")) none)
            "nullable" (some (.bool false))⟩

/-! ### `ODataMetaModel.prototype.requestCanonicalUrl` -/

/-- `ODataMetaModel.prototype.requestCanonicalUrl`.  The entity instance read
by `fnRead` is passed in directly; `encodeURIComponent` (a JS builtin) and
`Helper.getKeyPredicate` (not part of the sources) are taken as parameters.
`requestObject("", oMetaContext)` resolves to the meta path itself and
`requestObject("EntityType", oMetaContext)` to the meta path extended by
`"/EntityType"`. -/
def requestCanonicalUrl (container : JVal) (env : Env)
    (sServiceUrl sPath : String) (oEntityInstance : JVal)
    (encodeURIComponent : String → String)
    (getKeyPredicate : JVal → JVal → String) : Except JsErr String := do
  let mp ← requestMetaContext container env sPath
  let oEntitySet ← requestObject env container mp
  if !truthyOpt (getJs oEntitySet "EntityType") then
    throw (.error ("Not an entity: " ++ sPath))
  else
    let oEntityType ← requestObject env container (mp ++ "/EntityType")
    pure (sServiceUrl ++ encodeURIComponent (jsToString (getJs oEntitySet "Name"))
      ++ getKeyPredicate oEntityType oEntityInstance)

/-! ### The claim-level description of `requestMetaContext` (C1)

The following functions restate C1's description of the resolution procedure
LITERALLY, matching every segment in turn: split the path on slashes; look up
the first segment's identifier as an EntitySet or Singleton by `Name` in the
entity container, rejecting with an error naming the missing set or
singleton; follow subsequent segments through `NavigationPropertyBindings` as
long as they match, appending the matched binding and `"/Target"` to the meta
path for each; once a segment is not a navigation-property binding, switch to
the type — appending `"/EntityType"` for entity sets and `"/Type"` for
singletons — and match every remaining segment against the type's
`Properties` and `NavigationProperties`, rejecting with `Unknown property`
when a segment matches neither; resolve with the accumulated meta path.
(Error corners the claim's sentences leave open — a binding whose target set
cannot be found, a cross-service binding target, a property descriptor
without `Type` — are spelled out here exactly as the code handles them.)

This literal reading is FALSE of the code on the numeric index segments that
absolute OData data paths contain (the method's documented example is
`/TEAMS[0];list=0/TEAM_2_EMPLOYEES/0`): the claim's procedure looks an index
segment up as a property and rejects with `Unknown property`, while the code
skips one numeric segment after each matched segment ("skip index in data
path") and resolves — the counterexample below exhibits `/TEAMS/0/Budget`.
The amended claim adds that skip; the functions `specTypeWalkSkip`,
`specBindingsSkip` and `specMetaContextSkip` further down restate the amended
procedure, and the claim theorem proves the code equal to it with no
hypothesis on the path. -/

/-- Claim-level type walk (literal C1): every remaining segment is matched
against the type's `Properties` and `NavigationProperties`; each continuation
appends `"/Type"` and obtains the property's type through the lazy loader. -/
def specTypeWalk (env : Env) (sPath : String) :
    List String → JVal → String → Except JsErr String
  | [], _, mp => .ok mp
  | [seg], ty, mp =>
    match findChild ty ["Properties", "NavigationProperties"] seg with
    | none =>
      .error (.error ("Unknown property: " ++ jsToString (getJs ty "QualifiedName")
        ++ "/" ++ seg ++ ": " ++ sPath))
    | some (_, p) => .ok (mp ++ "/" ++ p ++ "('" ++ seg ++ "')")
  | seg :: r0 :: rest1, ty, mp =>
    match findChild ty ["Properties", "NavigationProperties"] seg with
    | none =>
      .error (.error ("Unknown property: " ++ jsToString (getJs ty "QualifiedName")
        ++ "/" ++ seg ++ ": " ++ sPath))
    | some (prop, p) =>
      match getJs prop "Type" with
      | none => .error (.typeError "Cannot convert undefined or null to object")
      | some _ =>
        specTypeWalk env sPath (r0 :: rest1)
          (requestTypeForNavigationProperty env prop "Type")
          (mp ++ "/" ++ p ++ "('" ++ seg ++ "')" ++ "/Type")

/-- Claim-level binding walk (literal C1): follow segments through
`NavigationPropertyBindings` as long as they match, appending `"/Target"`
for each (resolving the target set or singleton in the same container); at
the first non-binding segment switch to the type. -/
def specBindings (container : JVal) (env : Env) (sPath : String) :
    List String → JVal → String → String → Except JsErr String
  | [], _, _, mp => .ok mp
  | seg :: rest, cur, kind, mp =>
    match findChild cur ["NavigationPropertyBindings"] seg with
    | some (bnd, _) =>
      match getJs bnd "Target" with
      | none => .error (.typeError "Cannot read properties of undefined (reading 'Name')")
      | some tv =>
        if truthyOpt (getJs tv "Name") then
          match findSetOrSingleton container (jsToString (getJs tv "Name")) with
          | none =>
            .error (.error ("No EntitySet or Singleton with name '"
              ++ jsToString (getJs tv "Name") ++ "' found: " ++ sPath))
          | some (nxt, nxtProp) =>
            specBindings container env sPath rest nxt nxtProp
              (mp ++ "/NavigationPropertyBindings('" ++ seg ++ "')/Target")
        else .error (.error ("Unsupported cross-service reference: " ++ sPath))
    | none =>
      specTypeWalk env sPath (seg :: rest)
        (requestTypeForNavigationProperty env cur
          (if kind == "EntitySets" then "EntityType" else "Type"))
        (mp ++ "/" ++ (if kind == "EntitySets" then "EntityType" else "Type"))

/-- The literal claim-level resolver for C1, kept as the subject of the
counterexample: it predicts an `Unknown property` rejection on a numeric
index segment where the code skips the index and resolves. -/
def specMetaContext (container : JVal) (env : Env) (sPath : String) :
    Except JsErr String :=
  match splitPath sPath with
  | [] => .error (.error ("Unsupported: " ++ sPath))
  | s0 :: rest =>
    match identPrefix s0 with
    | none => .error (.error ("Unsupported: " ++ sPath))
    | some nm =>
      match findSetOrSingleton container nm with
      | none =>
        .error (.error ("No EntitySet or Singleton with name '" ++ nm ++ "' found: " ++ sPath))
      | some (setObj, p) =>
        specBindings container env sPath rest setObj p ("/" ++ p ++ "('" ++ nm ++ "')")

/-- Claim-level type walk for the AMENDED C1: as `specTypeWalk`, but after a
matched segment one numeric index segment of the data path is skipped without
affecting the meta path; a path ending in such an index resolves at the meta
path accumulated so far (which already names the matched property). -/
def specTypeWalkSkip (env : Env) (sPath : String) :
    List String → JVal → String → Except JsErr String
  | [], _, mp => .ok mp
  | [seg], ty, mp =>
    match findChild ty ["Properties", "NavigationProperties"] seg with
    | none =>
      .error (.error ("Unknown property: " ++ jsToString (getJs ty "QualifiedName")
        ++ "/" ++ seg ++ ": " ++ sPath))
    | some (_, p) => .ok (mp ++ "/" ++ p ++ "('" ++ seg ++ "')")
  | seg :: r0 :: rest1, ty, mp =>
    match findChild ty ["Properties", "NavigationProperties"] seg with
    | none =>
      .error (.error ("Unknown property: " ++ jsToString (getJs ty "QualifiedName")
        ++ "/" ++ seg ++ ": " ++ sPath))
    | some (prop, p) =>
      if isNumStr r0 then
        match rest1 with
        | [] => .ok (mp ++ "/" ++ p ++ "('" ++ seg ++ "')")
        | _ =>
          match getJs prop "Type" with
          | none => .error (.typeError "Cannot convert undefined or null to object")
          | some _ =>
            specTypeWalkSkip env sPath rest1
              (requestTypeForNavigationProperty env prop "Type")
              (mp ++ "/" ++ p ++ "('" ++ seg ++ "')" ++ "/Type")
      else
        match getJs prop "Type" with
        | none => .error (.typeError "Cannot convert undefined or null to object")
        | some _ =>
          specTypeWalkSkip env sPath (r0 :: rest1)
            (requestTypeForNavigationProperty env prop "Type")
            (mp ++ "/" ++ p ++ "('" ++ seg ++ "')" ++ "/Type")

/-- Claim-level binding walk for the AMENDED C1: as `specBindings`, but a
numeric index segment at the start of each round is skipped (a path ending in
such an index resolves at the accumulated meta path), and binding matching
then continues with the following segment. -/
def specBindingsSkip (container : JVal) (env : Env) (sPath : String) :
    List String → JVal → String → String → Except JsErr String
  | [], _, _, mp => .ok mp
  | [s0], cur, curProp, mp =>
    if isNumStr s0 then .ok mp
    else
      match findChild cur ["NavigationPropertyBindings"] s0 with
      | none =>
        specTypeWalkSkip env sPath [s0]
          (requestTypeForNavigationProperty env cur
            (if curProp == "EntitySets" then "EntityType" else "Type"))
          (mp ++ "/" ++ (if curProp == "EntitySets" then "EntityType" else "Type"))
      | some (bnd, _) =>
        match getJs bnd "Target" with
        | none => .error (.typeError "Cannot read properties of undefined (reading 'Name')")
        | some tv =>
          if truthyOpt (getJs tv "Name") then
            match findSetOrSingleton container (jsToString (getJs tv "Name")) with
            | none =>
              .error (.error ("No EntitySet or Singleton with name '"
                ++ jsToString (getJs tv "Name") ++ "' found: " ++ sPath))
            | some (_, _) =>
              .ok (mp ++ "/NavigationPropertyBindings('" ++ s0 ++ "')/Target")
          else .error (.error ("Unsupported cross-service reference: " ++ sPath))
  | s0 :: s1 :: rest1, cur, curProp, mp =>
    if isNumStr s0 then
      match findChild cur ["NavigationPropertyBindings"] s1 with
      | none =>
        specTypeWalkSkip env sPath (s1 :: rest1)
          (requestTypeForNavigationProperty env cur
            (if curProp == "EntitySets" then "EntityType" else "Type"))
          (mp ++ "/" ++ (if curProp == "EntitySets" then "EntityType" else "Type"))
      | some (bnd, _) =>
        match getJs bnd "Target" with
        | none => .error (.typeError "Cannot read properties of undefined (reading 'Name')")
        | some tv =>
          if truthyOpt (getJs tv "Name") then
            match findSetOrSingleton container (jsToString (getJs tv "Name")) with
            | none =>
              .error (.error ("No EntitySet or Singleton with name '"
                ++ jsToString (getJs tv "Name") ++ "' found: " ++ sPath))
            | some (nxt, nxtProp) =>
              specBindingsSkip container env sPath rest1 nxt nxtProp
                (mp ++ "/NavigationPropertyBindings('" ++ s1 ++ "')/Target")
          else .error (.error ("Unsupported cross-service reference: " ++ sPath))
    else
      match findChild cur ["NavigationPropertyBindings"] s0 with
      | none =>
        specTypeWalkSkip env sPath (s0 :: s1 :: rest1)
          (requestTypeForNavigationProperty env cur
            (if curProp == "EntitySets" then "EntityType" else "Type"))
          (mp ++ "/" ++ (if curProp == "EntitySets" then "EntityType" else "Type"))
      | some (bnd, _) =>
        match getJs bnd "Target" with
        | none => .error (.typeError "Cannot read properties of undefined (reading 'Name')")
        | some tv =>
          if truthyOpt (getJs tv "Name") then
            match findSetOrSingleton container (jsToString (getJs tv "Name")) with
            | none =>
              .error (.error ("No EntitySet or Singleton with name '"
                ++ jsToString (getJs tv "Name") ++ "' found: " ++ sPath))
            | some (nxt, nxtProp) =>
              specBindingsSkip container env sPath (s1 :: rest1) nxt nxtProp
                (mp ++ "/NavigationPropertyBindings('" ++ s0 ++ "')/Target")
          else .error (.error ("Unsupported cross-service reference: " ++ sPath))

/-- The claim-level resolver for the AMENDED C1 (with index skipping). -/
def specMetaContextSkip (container : JVal) (env : Env) (sPath : String) :
    Except JsErr String :=
  match splitPath sPath with
  | [] => .error (.error ("Unsupported: " ++ sPath))
  | s0 :: rest =>
    match identPrefix s0 with
    | none => .error (.error ("Unsupported: " ++ sPath))
    | some nm =>
      match findSetOrSingleton container nm with
      | none =>
        .error (.error ("No EntitySet or Singleton with name '" ++ nm ++ "' found: " ++ sPath))
      | some (setObj, p) =>
        specBindingsSkip container env sPath rest setObj p ("/" ++ p ++ "('" ++ nm ++ "')")

/-! ### Message-shape helpers and error classes (C6) -/

/-- Does `p` lead the string `s` (char-list structural version of a prefix
test, so that it evaluates in the kernel)? -/
def leadsAux : List Char → List Char → Bool
  | _, [] => true
  | [], _ :: _ => false
  | c :: cs, d :: ds => c == d && leadsAux cs ds

def strLeads (s p : String) : Bool := leadsAux s.data p.data

/-- Does `sub` occur inside `s`? -/
def hasSubAux : List Char → List Char → Bool
  | [], sub => sub.isEmpty
  | c :: cs, sub => leadsAux (c :: cs) sub || hasSubAux cs sub

def strHasSub (s sub : String) : Bool := hasSubAux s.data sub.data

/-- The rejection shapes `followPath` can produce: `Unknown <segment>`,
`"<property>" is not an array`, or the `TypeError` of an `in` lookup on a
primitive value. -/
def followPathErrClass (sPath : String) : JsErr → Prop
  | .error m => (∃ seg, m = "Unknown " ++ seg ++ ": " ++ sPath)
      ∨ (∃ prop, m = "\"" ++ prop ++ "\" is not an array: " ++ sPath)
  | .typeError m => ∃ k, m = "Cannot use 'in' operator to search for '" ++ k ++ "'"

/-! ### The claim-level constraint derivation of `requestUI5Type` (C3) -/

/-- C3's description of the constraint derivation: for `Edm.Decimal` the
`Precision` and `Scale` facet values become the `precision` and `scale`
constraints, for `Edm.String` the `MaxLength` facet value becomes the
`maxLength` constraint, facets of other supported types contribute no
constraints; `Nullable` equal to `false` adds the constraint
`nullable = false`; when `Nullable` is true and no applicable facet is
present, the constraints object is undefined (`none`).

The claim-level fold on facets for `Edm.Decimal`: the `Precision` and
`Scale` facet values become the `precision` and `scale` constraints. -/
def decimalFoldC3 (fs : List JVal) : List (String × Option JVal) :=
  fs.foldl (fun acc f =>
    if jsToString (getJs f "Name") == "Precision" then
      upsert acc "precision" (getJs f "Value")
    else if jsToString (getJs f "Name") == "Scale" then
      upsert acc "scale" (getJs f "Value")
    else acc) []

/-- The claim-level fold on facets for `Edm.String`: the `MaxLength` facet
value becomes the `maxLength` constraint. -/
def stringFoldC3 (fs : List JVal) : List (String × Option JVal) :=
  fs.foldl (fun acc f =>
    if jsToString (getJs f "Name") == "MaxLength" then
      upsert acc "maxLength" (getJs f "Value")
    else acc) []

def specConstraintsC3 (q : String) (fs : List JVal) (nullable : Bool) :
    Option (List (String × Option JVal)) :=
  let base : List (String × Option JVal) :=
    if q == "Edm.Decimal" then decimalFoldC3 fs
    else if q == "Edm.String" then stringFoldC3 fs
    else []
  let withNullable := if nullable then base else upsert base "nullable" (some (.bool false))
  if withNullable.isEmpty then none else some withNullable

/-- The claim-level facet fold, generic in the facet map (used to relate
`facetLoop` to `specConstraintsC3`). -/
def specFoldM (m : List (String × String)) (fs : List JVal)
    (acc : List (String × Option JVal)) : List (String × Option JVal) :=
  fs.foldl (fun acc f =>
    match assocLookup m (jsToString (getJs f "Name")) with
    | some key => upsert acc key (getJs f "Value")
    | none => acc) acc

/-! ### Sample metadata (shared by the concrete witnesses) -/

namespace Sample

def fullTeam : JVal := .obj [
  ("QualifiedName", .str "c.Team"),
  ("Properties", .arr [
    .obj [("Name", .str "Team_Id"),
          ("Type", .obj [("QualifiedName", .str "Edm.String"), ("Name", .str "String")]),
          ("Facets", .arr [.obj [("Name", .str "MaxLength"), ("Value", .str "10")]]),
          ("Nullable", .bool false)],
    .obj [("Name", .str "Budget"),
          ("Type", .obj [("QualifiedName", .str "Edm.Decimal"), ("Name", .str "Decimal")]),
          ("Facets", .arr [.obj [("Name", .str "Precision"), ("Value", .str "16")],
                           .obj [("Name", .str "Scale"), ("Value", .str "2")]]),
          ("Nullable", .bool true)],
    .obj [("Name", .str "Raw"),
          ("Type", .obj [("QualifiedName", .str "Edm.Stream"), ("Name", .str "Stream")]),
          ("Facets", .arr []), ("Nullable", .bool true)]]),
  ("NavigationProperties", .arr [])]

def fullWorker : JVal := .obj [
  ("QualifiedName", .str "c.Worker"),
  ("Properties", .arr [
    .obj [("Name", .str "ID"),
          ("Type", .obj [("QualifiedName", .str "Edm.String"), ("Name", .str "String")]),
          ("Facets", .arr []), ("Nullable", .bool false)]]),
  ("NavigationProperties", .arr [])]

def tEmployees : JVal := .obj [
  ("Name", .str "EMPLOYEES"),
  ("EntityType", .obj [("QualifiedName", .str "c.Worker")]),
  ("NavigationPropertyBindings", .arr [])]

def tTeams : JVal := .obj [
  ("Name", .str "TEAMS"),
  ("EntityType", .obj [("QualifiedName", .str "c.Team")]),
  ("NavigationPropertyBindings", .arr [
    .obj [("Name", .str "TEAM_2_EMPLOYEES"), ("Target", tEmployees)]])]

def tContainer : JVal := .obj [
  ("Name", .str "Container"),
  ("EntitySets", .arr [tTeams, tEmployees]),
  ("Singletons", .arr [])]

def tEnv : Env := fun q =>
  if q == "c.Team" then fullTeam
  else if q == "c.Worker" then fullWorker
  else .obj [("QualifiedName", .str q), ("Properties", .arr []),
             ("NavigationProperties", .arr [])]

/-- A container whose property `p` has an array-valued `Type` with a single
element: `Object.keys` of it has length 1, although it is not a non-array
object (used to separate the two lazy-load conditions). -/
def arrTyProp : JVal := .obj [("Name", .str "p"), ("Type", .arr [.str "x"])]

def setS : JVal := .obj [
  ("Name", .str "S"),
  ("EntityType", .obj [
    ("QualifiedName", .str "c.S"),
    ("Properties", .arr [arrTyProp]),
    ("NavigationProperties", .arr [])]),
  ("NavigationPropertyBindings", .arr [])]

def cContainer : JVal := .obj [("EntitySets", .arr [setS]), ("Singletons", .arr [])]

def cEnv : Env := fun _ => .obj [("QualifiedName", .str "x")]

end Sample

end OData

/-!
## `AdditionalElementsPlugin` (sap.ui.rta)

The plugin orchestrates design-time actions over an overlay tree.  The
embedding abstracts the framework collaborators (overlays, design-time
metadata, change handlers, command factory) into the boolean and string data
the plugin's control flow actually consumes, and embeds the plugin's own
logic (`_invisibleToReveal`, `_getRevealActionFromAggregations`,
`_getActions`' merge, `_createCommands`, `isEnabled`, `getMenuItems`,
`_buildMenuItem`) faithfully over that data.
-/

namespace RTA

open OData (upsert assocLookup)

/-- An invisible element of an aggregation, as consulted by
`_invisibleToReveal`: whether an overlay is registered for it, whether its
designtime metadata has a `reveal` action with a `changeType`, whether that
change goes on the relevant container, whether a change handler is available,
the stable-ID checks of the relevant-container and parent overlays, and the
control type name provided by `getName` (if any). -/
structure InvisibleElement where
  elementId : String
  hasOverlay : Bool
  hasRevealActionWithChangeType : Bool
  changeOnRelevantContainer : Bool
  hasChangeHandler : Bool
  relevantContainerStableId : Bool
  parentStableId : Bool
  controlTypeName : Option String
deriving DecidableEq

/-- The `reveal` entry accumulated per aggregation:
`{elements : [...], controlTypeNames : [...]}`. -/
structure RevealData where
  elements : List InvisibleElement
  controlTypeNames : List String
deriving DecidableEq

/-- `_invisibleToReveal`, with the source's nested checks: an overlay must be
registered; the `reveal` action must exist and carry a `changeType`; a change
handler must be available; when the change goes on the relevant container,
the relevant-container and parent overlays must have stable IDs.  A passing
element is appended together with its control type name (when named). -/
def invisibleToReveal (mReveal : RevealData) (e : InvisibleElement) : RevealData :=
  if (if e.hasOverlay then
        if e.hasRevealActionWithChangeType then
          if e.hasChangeHandler then
            if e.changeOnRelevantContainer then
              e.relevantContainerStableId && e.parentStableId
            else true
          else false
        else false
      else false) then
    { elements := mReveal.elements ++ [e],
      controlTypeNames := mReveal.controlTypeNames ++
        (match e.controlTypeName with
         | some n => [n]
         | none => []) }
  else mReveal

/-- The claim-level summary of the checks of `_invisibleToReveal`. -/
def passesRevealChecks (e : InvisibleElement) : Bool :=
  e.hasOverlay && e.hasRevealActionWithChangeType && e.hasChangeHandler &&
    (!e.changeOnRelevantContainer || (e.relevantContainerStableId && e.parentStableId))

/-- `_getRevealActionFromAggregations`: reduce the aggregation's invisible
elements through `_invisibleToReveal`; only when the collected element list
is non-empty does the aggregation receive a `reveal` entry. -/
def getRevealActionFromAggregations (invisible : List InvisibleElement)
    (mRevealAcc : List (String × RevealData)) (sAggregationName : String) :
    List (String × RevealData) :=
  if (invisible.foldl invisibleToReveal ⟨[], []⟩).elements.length > 0 then
    upsert mRevealAcc sAggregationName (invisible.foldl invisibleToReveal ⟨[], []⟩)
  else mRevealAcc

/-- `_getRevealActions`: fold `_getRevealActionFromAggregations` over the
aggregations (each given with the invisible elements collected from the
relevant parent overlays). -/
def getRevealActions (aggs : List (String × List InvisibleElement)) :
    List (String × RevealData) :=
  aggs.foldl (fun acc pr => getRevealActionFromAggregations pr.2 acc pr.1) []

/-- The per-aggregation entry of the map `_getActions` resolves with.  The
add-via-delegate and custom-add data are abstract payloads: their
computation involves only framework collaborators. -/
structure AggActions where
  reveal : Option RevealData
  addViaDelegate : Option String
  addViaCustom : Option String
deriving DecidableEq

/-- Keys in insertion order with duplicates removed (JS object key order of
the merge target). -/
def dedupKeys : List String → List String
  | [] => []
  | k :: rest => k :: (dedupKeys rest).filter (fun k2 => k2 != k)

/-- The `merge(aAllActions[0], aAllActions[1], aAllActions[2])` of
`_getActions`, specialised to the three per-aggregation maps (whose inner
keys — `reveal`, `addViaDelegate`, `addViaCustom` — are disjoint): the key
set is the union, and each entry combines the three lookups. -/
def mergeActions (r : List (String × RevealData))
    (d c : List (String × String)) : List (String × AggActions) :=
  (dedupKeys (r.map Prod.fst ++ d.map Prod.fst ++ c.map Prod.fst)).map
    (fun k => (k, ⟨assocLookup r k, assocLookup d k, assocLookup c k⟩))

/-- `_getActions` (without the `_mAddActions` cache): the merge of the
reveal, add-via-delegate and custom-add computations. -/
def getActions (aggs : List (String × List InvisibleElement))
    (delegateActions customActions : List (String × String)) :
    List (String × AggActions) :=
  mergeActions (getRevealActions aggs) delegateActions customActions

/-- Sample aggregation data for concrete witnesses: one aggregation with one
invisible element passing the reveal checks and one failing them. -/
def sampleAggs : List (String × List InvisibleElement) := [("items",
  [⟨"el1", true, true, false, true, true, true, some "Field"⟩,
   ⟨"el2", true, false, false, false, true, true, none⟩])]

/-! ### `_createCommands` (C8) -/

inductive SelType where
  | invisible
  | delegate
  | custom
  | other
deriving DecidableEq

/-- A selected dialog element: its label, its kind, and the data deciding
the optional commands (whether the reveal needs a move, whether required
libraries are missing from the app's dependencies). -/
structure SelectedElement where
  label : String
  selType : SelType
  needsMove : Bool
  libMissing : Bool
deriving DecidableEq

/-- The commands added to the composite command, tagged by the label of the
selected element they were created for. -/
inductive RtaCommand where
  | reveal (label : String)
  | move (label : String)
  | addLibrary (label : String)
  | addDelegateProperty (label : String)
  | customAdd (label : String)
deriving DecidableEq

/-- The descending-by-label order of the `_createCommands` sort comparator
(`label1 > label2 → -1`). -/
def labelDescRel (a b : SelectedElement) : Prop := b.label ≤ a.label

instance : DecidableRel labelDescRel := fun a b => String.decidableLE b.label a.label

instance : IsTotal SelectedElement labelDescRel := ⟨fun a b => le_total b.label a.label⟩

instance : IsTrans SelectedElement labelDescRel := ⟨fun _ _ _ h1 h2 => le_trans h2 h1⟩

/-- `_createCommandsForInvisibleElement`: the reveal command, followed by the
move command when one is needed. -/
def commandsForInvisibleElement (e : SelectedElement) : List RtaCommand :=
  [.reveal e.label] ++ (if e.needsMove then [.move e.label] else [])

/-- `_createCommandsForAddViaDelegate`: the add-library command when required
libraries are missing, followed by the `addDelegateProperty` command. -/
def commandsForAddViaDelegate (e : SelectedElement) : List RtaCommand :=
  (if e.libMissing then [.addLibrary e.label] else []) ++ [.addDelegateProperty e.label]

/-- `_createCommandsForCustomElement`: the `customAdd` command. -/
def commandsForCustomElement (e : SelectedElement) : List RtaCommand :=
  [.customAdd e.label]

/-- The `switch` over the selected element's type (an untreated type only
logs an error and contributes no command). -/
def commandsForSelectedElement (e : SelectedElement) : List RtaCommand :=
  match e.selType with
  | .invisible => commandsForInvisibleElement e
  | .delegate => commandsForAddViaDelegate e
  | .custom => commandsForCustomElement e
  | .other => []

/-- `_createCommands`: sort the selected elements by label in descending
order (the JS sort is stable; `insertionSort` with the reflexive descending
relation is the same stable sort), then, when at least one element is
selected, create the commands sequentially in that order inside one
composite command; an empty selection resolves immediately without a
composite command. -/
def createCommands (sel : List SelectedElement) : Option (List RtaCommand) :=
  if sel.length > 0 then
    some ((sel.insertionSort labelDescRel).foldl
      (fun acc e => acc ++ commandsForSelectedElement e) [])
  else none

/-! ### `isEnabled` (C9) -/

/-- The per-aggregation action data `isEnabled` consults:
`reveal.elements.length`, `addViaCustom`, `addViaDelegate`. -/
structure AggActionsEnabled where
  revealElements : Option Nat
  addViaCustom : Bool
  addViaDelegate : Bool

/-- An element overlay as consulted by `isEnabled`: whether the responsible
element overlay has a parent element overlay, and the cached
`_getActionsOrUndef` lookup. -/
structure OverlayE where
  hasParentElementOverlay : Bool
  actions : Bool → String → Option AggActionsEnabled

/-- The plugin state `isEnabled` consults: the cached element lists and the
extensibility info, per sibling/child flag. -/
structure PluginState where
  cachedElements : Bool → Option Nat
  extensibilityInfo : Bool → Bool

/-- `AdditionalElementsPlugin.isEnabled`: more than one selected overlay is
never enabled; otherwise the sibling case requires a parent element overlay,
the child case an action entry for the aggregation with a non-empty reveal
element list, a custom-add or an add-via-delegate; in both cases elements
must be cached (non-empty) or extensibility info present. -/
def isEnabled (st : PluginState) (bOverlayIsSibling : Bool)
    (overlays : List OverlayE) (sAggregationName : String) : Bool :=
  if overlays.length > 1 then false
  else
    match overlays with
    | [] => false
    | o :: _ =>
      (if bOverlayIsSibling then o.hasParentElementOverlay
       else
         match o.actions bOverlayIsSibling sAggregationName with
         | some m =>
           (match m.revealElements with
            | some n => n > 0
            | none => false) || m.addViaCustom || m.addViaDelegate
         | none => false) &&
      ((match st.cachedElements bOverlayIsSibling with
        | some n => n > 0
        | none => false) || st.extensibilityInfo bOverlayIsSibling)

/-! ### `getMenuItems` (C10) -/

/-- The per-aggregation element lists computed by `getAllElements` (already
filtered to non-empty element lists by `_combineAnalyzerResults`). -/
structure AggregationElements where
  aggregation : String
  elements : List String
deriving DecidableEq

structure SubMenuItem where
  id : String
  aggregation : String
deriving DecidableEq

structure MenuItem where
  id : String
  isSibling : Bool
  hasSubMenu : Bool
  submenu : List SubMenuItem
deriving DecidableEq

/-- `_buildSubmenuItems`: one entry per aggregation, with ids
`<pluginId>_<position>`. -/
def buildSubmenuItems (bOverlayIsSibling : Bool) (elems : List AggregationElements) :
    List SubMenuItem :=
  elems.enum.map (fun pr =>
    ⟨(if bOverlayIsSibling then "CTX_ADD_ELEMENTS_AS_SIBLING"
      else "CTX_ADD_ELEMENTS_AS_CHILD") ++ "_" ++ toString pr.1, pr.2.aggregation⟩)

/-- `_buildMenuItem`: the item for the given plugin id; with a submenu it
lists the child aggregations first, and also the sibling aggregations for
`CTX_ADD_ELEMENTS_CHILD_AND_SIBLING`. -/
def buildMenuItem (sPluginId : String) (bOverlayIsSibling : Bool)
    (childElems sibElems : List AggregationElements) (bHasSubMenu : Bool) : MenuItem :=
  ⟨sPluginId, bOverlayIsSibling, bHasSubMenu,
    if bHasSubMenu then
      buildSubmenuItems false childElems ++
        (if sPluginId == "CTX_ADD_ELEMENTS_CHILD_AND_SIBLING" then
          buildSubmenuItems true sibElems
        else [])
    else []⟩

/-- `getMenuItems`, over the data it computes (`getAllElements` results for
the child and sibling cases, and the two `isAvailable` outcomes): the four
exclusive cases of the source, each contributing the single menu item; no
case contributes none. -/
def getMenuItems (childElems sibElems : List AggregationElements)
    (availForChildren availForSibling : Bool) : List MenuItem :=
  if availForSibling && (!availForChildren || !(childElems.length > 0 : Bool)) then
    [buildMenuItem "CTX_ADD_ELEMENTS_AS_SIBLING" true childElems sibElems false]
  else if !availForSibling && availForChildren && !(childElems.length > 1 : Bool) then
    [buildMenuItem "CTX_ADD_ELEMENTS_AS_CHILD" false childElems sibElems false]
  else if !availForSibling && availForChildren && (childElems.length > 1 : Bool) then
    [buildMenuItem "CTX_ADD_ELEMENTS_AS_CHILD" false childElems sibElems true]
  else if availForChildren && availForSibling && (childElems.length > 0 : Bool)
      && (sibElems.length > 0 : Bool) then
    [buildMenuItem "CTX_ADD_ELEMENTS_CHILD_AND_SIBLING" false childElems sibElems true]
  else []

end RTA

namespace OData

/-! ### Trace lemmas: which values trigger the lazy type load -/

theorem followPath_loads (env : Env) (sPath : String) :
    ∀ (segs : List String) (o : JVal),
      (followPath env sPath segs o).loads
        = (followPath env sPath segs o).visited.filter isPlaceholder := by
  intro segs o
  induction segs, o using followPath.induct env sPath <;>
    simp_all [followPath, consTrace, errObj, List.filter]

theorem followTy_loads (container : JVal) (env : Env) (sPath : String) :
    ∀ (segs : List String) (ty : JVal) (mp : String),
      (followTy container env sPath segs ty mp).loads
        = (followTy container env sPath segs ty mp).visited.filter
            (fun v => keysCount v == 1) := by
  intro segs ty mp
  induction segs, ty, mp using followTy.induct container env sPath <;>
    simp_all [followTy, consTraceM, errMeta, List.filter]

theorem containerLoop_loads (container : JVal) (env : Env) (sPath : String) :
    ∀ (segs : List String) (cur : JVal) (curProp mp : String),
      (containerLoop container env sPath segs cur curProp mp).loads
        = (containerLoop container env sPath segs cur curProp mp).visited.filter
            (fun v => keysCount v == 1) := by
  intro segs cur curProp mp
  induction segs, cur, curProp, mp using containerLoop.induct container env sPath <;>
    simp_all [containerLoop, errMeta, followTy_loads]

theorem requestObjectT_loads (env : Env) (container : JVal) (sResolvedPath : String) :
    (requestObjectT env container sResolvedPath).loads
      = (requestObjectT env container sResolvedPath).visited.filter isPlaceholder := by
  unfold requestObjectT
  split
  · rfl
  · exact followPath_loads env sResolvedPath _ _

theorem requestMetaContextT_loads (container : JVal) (env : Env) (sPath : String) :
    (requestMetaContextT container env sPath).loads
      = (requestMetaContextT container env sPath).visited.filter
          (fun v => keysCount v == 1) := by
  unfold requestMetaContextT
  split
  · rfl
  · split
    · rfl
    · split
      · rfl
      · exact containerLoop_loads container env sPath _ _ _ _

/-! ### Classification of `requestObject` rejections -/

theorem inOp_error_shape (k : String) (o : JVal) (e : JsErr) :
    inOp k o = .error e →
    e = .typeError ("Cannot use 'in' operator to search for '" ++ k ++ "'") := by
  cases o <;> simp [inOp] <;> intro h <;> exact h.symm

theorem followPath_errClass (env : Env) (sPath : String) :
    ∀ (segs : List String) (o : JVal),
      (∃ v, (followPath env sPath segs o).result = .ok v) ∨
      (∃ e, (followPath env sPath segs o).result = .error e ∧ followPathErrClass sPath e) := by
  intro segs o
  induction segs, o using followPath.induct env sPath <;>
    simp_all [followPath, errObj, consTrace] <;>
    first
      | exact Or.inl ⟨_, rfl⟩
      | exact Or.inr ⟨_, rfl⟩
      | (rename_i e h
         rw [inOp_error_shape _ _ _ h]
         exact ⟨_, rfl⟩)

/-! ### Equivalence of `requestMetaContext` with the claim-level resolver -/

theorem followTy_spec (container : JVal) (env : Env) (sPath : String) :
    ∀ (segs : List String) (ty : JVal) (mp : String),
      (followTy container env sPath segs ty mp).result
        = specTypeWalkSkip env sPath segs ty mp := by
  intro segs ty mp
  induction segs, ty, mp using followTy.induct container env sPath <;>
    simp_all [followTy, specTypeWalkSkip, consTraceM, errMeta, requestTypeForNavigationProperty]

theorem containerLoop_spec (container : JVal) (env : Env) (sPath : String) :
    ∀ (segs : List String) (cur : JVal) (curProp mp : String),
      (containerLoop container env sPath segs cur curProp mp).result
        = specBindingsSkip container env sPath segs cur curProp mp := by
  intro segs cur curProp mp
  induction segs, cur, curProp, mp using containerLoop.induct container env sPath <;>
    simp_all [containerLoop, specBindingsSkip, errMeta, followTy_spec]

theorem exceptPure {ε α : Type} (a : α) : (pure a : Except ε α) = .ok a := rfl

theorem exceptThrow {ε α : Type} (e : ε) : (throw e : Except ε α) = .error e := rfl

theorem exceptBind_ok {ε α β : Type} (a : α) (f : α → Except ε β) :
    ((Except.ok a : Except ε α) >>= f) = f a := rfl

theorem exceptBind_error {ε α β : Type} (e : ε) (f : α → Except ε β) :
    ((Except.error e : Except ε α) >>= f) = .error e := rfl

theorem beq_comm_str (a b : String) : (a == b) = (b == a) := by
  cases h : decide (a = b) <;> simp_all [beq_iff_eq, eq_comm]

theorem getJs_obj (fields : List (String × JVal)) (k : String) :
    getJs (.obj fields) k = objLookup fields k := rfl

theorem leadsAux_append :
    ∀ (p xs ys : List Char), leadsAux xs p = true → leadsAux (xs ++ ys) p = true
  | [], _, _, _ => by simp [leadsAux]
  | c :: p, [], ys, h => by simp [leadsAux] at h
  | c :: p, x :: xs, ys, h => by
    simp only [leadsAux, Bool.and_eq_true] at h ⊢
    exact ⟨h.1, leadsAux_append p xs ys h.2⟩

theorem strLeads_append_left (a b p : String) (h : strLeads a p = true) :
    strLeads (a ++ b) p = true := by
  unfold strLeads at h ⊢
  rw [show (a ++ b).data = a.data ++ b.data from by cases a; cases b; rfl]
  exact leadsAux_append p.data a.data b.data h

/-! ### Facet-fold lemmas (C3) -/

theorem upsert_ne_nil {α : Type} (l : List (String × α)) (k : String) (v : α) :
    (upsert l k v).isEmpty = false := by
  cases l with
  | nil => simp [upsert]
  | cons h t => simp only [upsert]; split <;> simp

theorem facetLoop_some (m : List (String × String)) :
    ∀ (fs : List JVal) (l : List (String × Option JVal)),
      facetLoop m fs (some l) = some (specFoldM m fs l) := by
  intro fs
  induction fs with
  | nil => intro l; rfl
  | cons f fs ih =>
    intro l
    simp only [facetLoop, specFoldM, List.foldl_cons]
    cases h : assocLookup m (jsToString (getJs f "Name")) with
    | none => simpa [facetLoop, specFoldM] using ih l
    | some key =>
      simpa [facetLoop, specFoldM, setConstraint] using ih (upsert l key (getJs f "Value"))

theorem specFoldM_ne_nil (m : List (String × String)) :
    ∀ (fs : List JVal) (l : List (String × Option JVal)),
      l.isEmpty = false → (specFoldM m fs l).isEmpty = false := by
  intro fs
  induction fs with
  | nil => intro l h; simpa [specFoldM] using h
  | cons f fs ih =>
    intro l h
    simp only [specFoldM, List.foldl_cons]
    cases hx : assocLookup m (jsToString (getJs f "Name")) with
    | none => simpa [specFoldM] using ih l h
    | some key => simpa [specFoldM] using ih _ (upsert_ne_nil l key (getJs f "Value"))

theorem facetLoop_none (m : List (String × String)) :
    ∀ fs : List JVal,
      facetLoop m fs none
        = if (specFoldM m fs []).isEmpty then none else some (specFoldM m fs []) := by
  intro fs
  induction fs with
  | nil => simp [facetLoop, specFoldM]
  | cons f fs ih =>
    simp only [facetLoop, specFoldM, List.foldl_cons]
    cases hx : assocLookup m (jsToString (getJs f "Name")) with
    | none => simpa [facetLoop, specFoldM] using ih
    | some key =>
      have h1 := facetLoop_some m fs [(key, getJs f "Value")]
      have h2 := specFoldM_ne_nil m fs [(key, getJs f "Value")] (by simp)
      simp only [facetLoop] at h1
      simp only [specFoldM] at h1 h2 ⊢
      rw [show setConstraint none key (getJs f "Value")
            = some [(key, getJs f "Value")] from rfl]
      rw [show upsert ([] : List (String × Option JVal)) key (getJs f "Value")
            = [(key, getJs f "Value")] from rfl]
      rw [h1, h2]
      simp

theorem facetLoop_nilMap :
    ∀ (fs : List JVal) (cs : Option (List (String × Option JVal))),
      facetLoop [] fs cs = cs := by
  intro fs
  induction fs with
  | nil => intro cs; rfl
  | cons f fs ih =>
    intro cs
    have := ih cs
    simp only [facetLoop] at this ⊢
    simp [assocLookup]

theorem specFoldM_decimal (fs : List JVal) :
    specFoldM [("Precision", "precision"), ("Scale", "scale")] fs [] = decimalFoldC3 fs := by
  unfold specFoldM decimalFoldC3
  apply List.foldl_ext
  intro acc b _
  by_cases h1 : jsToString (getJs b "Name") = "Precision"
  · simp [assocLookup, h1]
  · by_cases h2 : jsToString (getJs b "Name") = "Scale"
    · simp [assocLookup, h1, h2]
    · simp [assocLookup, beq_iff_eq, h1, h2, Ne.symm h1, Ne.symm h2]

theorem specFoldM_string (fs : List JVal) :
    specFoldM [("MaxLength", "maxLength")] fs [] = stringFoldC3 fs := by
  unfold specFoldM stringFoldC3
  apply List.foldl_ext
  intro acc b _
  by_cases h1 : jsToString (getJs b "Name") = "MaxLength"
  · simp [assocLookup, h1]
  · simp [assocLookup, beq_iff_eq, h1, Ne.symm h1]

theorem assocLookup_mem {α : Type} :
    ∀ (l : List (String × α)) (q : String) (u : α),
      assocLookup l q = some u → (q, u) ∈ l := by
  intro l
  induction l with
  | nil => intro q u h; simp [assocLookup] at h
  | cons p rest ih =>
    intro q u h
    cases p with
    | mk k v =>
      simp only [assocLookup] at h
      split at h
      · rename_i hc
        injection h with h'
        simp only [List.mem_cons]
        exact Or.inl (by rw [(beq_iff_eq.mp hc), h'])
      · exact List.mem_cons_of_mem _ (ih q u h)

theorem mUi5_facets_cases (q : String) (u : Ui5TypeEntry)
    (h : assocLookup mUi5TypeForEdmType q = some u) :
    (q = "Edm.Decimal" ∧ u = ⟨"sap.ui.model.odata.type.Decimal",
        [("Precision", "precision"), ("Scale", "scale")]⟩)
    ∨ (q = "Edm.String" ∧ u = ⟨"sap.ui.model.odata.type.String", [("MaxLength", "maxLength")]⟩)
    ∨ ((q ≠ "Edm.Decimal" ∧ q ≠ "Edm.String") ∧ u.facets = []) := by
  have hmem := assocLookup_mem _ q u h
  simp only [mUi5TypeForEdmType, List.mem_cons, List.not_mem_nil, or_false] at hmem
  rcases hmem with h0|h0|h0|h0|h0|h0|h0|h0|h0|h0|h0|h0 <;>
    (injection h0 with hq hu; subst hq; subst hu) <;>
    first
      | exact Or.inl ⟨rfl, rfl⟩
      | exact Or.inr (Or.inl ⟨rfl, rfl⟩)
      | exact Or.inr (Or.inr ⟨⟨by decide, by decide⟩, rfl⟩)

theorem specC3_decimal (fs : List JVal) (nb : Bool) :
    (if nb then facetLoop [("Precision", "precision"), ("Scale", "scale")] fs none
     else setConstraint (facetLoop [("Precision", "precision"), ("Scale", "scale")] fs none)
       "nullable" (some (.bool false)))
    = specConstraintsC3 "Edm.Decimal" fs nb := by
  have hb := specFoldM_decimal fs
  cases nb
  · rw [facetLoop_none, hb]
    by_cases he : (decimalFoldC3 fs).isEmpty
    · have h0 : decimalFoldC3 fs = [] := List.isEmpty_iff.mp he
      simp [specConstraintsC3, h0, setConstraint, upsert_ne_nil]
    · simp [specConstraintsC3, he, setConstraint, upsert_ne_nil]
  · rw [facetLoop_none, hb]
    simp [specConstraintsC3]

theorem specC3_string (fs : List JVal) (nb : Bool) :
    (if nb then facetLoop [("MaxLength", "maxLength")] fs none
     else setConstraint (facetLoop [("MaxLength", "maxLength")] fs none)
       "nullable" (some (.bool false)))
    = specConstraintsC3 "Edm.String" fs nb := by
  have hb := specFoldM_string fs
  cases nb
  · rw [facetLoop_none, hb]
    by_cases he : (stringFoldC3 fs).isEmpty
    · have h0 : stringFoldC3 fs = [] := List.isEmpty_iff.mp he
      simp [specConstraintsC3, h0, setConstraint, upsert_ne_nil]
    · simp [specConstraintsC3, he, setConstraint, upsert_ne_nil]
  · rw [facetLoop_none, hb]
    simp [specConstraintsC3]

theorem specC3_other (q : String) (fs : List JVal) (nb : Bool)
    (h1 : q ≠ "Edm.Decimal") (h2 : q ≠ "Edm.String") :
    (if nb then facetLoop [] fs none
     else setConstraint (facetLoop [] fs none) "nullable" (some (.bool false)))
    = specConstraintsC3 q fs nb := by
  rw [facetLoop_nilMap]
  cases nb
  · simp [specConstraintsC3, beq_iff_eq, h1, h2, setConstraint, upsert_ne_nil]
  · simp [specConstraintsC3, beq_iff_eq, h1, h2]

theorem requestUI5Type_resolved (container : JVal) (env : Env) (sPath mp : String)
    (fields : List (String × JVal)) (tyv : JVal) (q : String) (u : Ui5TypeEntry)
    (fs : List JVal) (nb : Bool)
    (hmc : requestMetaContext container env sPath = .ok mp)
    (hobj : requestObject env container mp = .ok (.obj fields))
    (hT : objLookup fields "Type" = some tyv)
    (hQ : getJs tyv "QualifiedName" = some (.str q))
    (hu : assocLookup mUi5TypeForEdmType q = some u)
    (hF : objLookup fields "Facets" = some (.arr fs))
    (hN : objLookup fields "Nullable" = some (.bool nb)) :
    requestUI5Type container env sPath
      = (if nb then Except.ok ⟨u.type, facetLoop u.facets fs none⟩
         else Except.ok ⟨u.type,
           setConstraint (facetLoop u.facets fs none) "nullable" (some (.bool false))⟩) := by
  have hg : ∀ k, getJs (.obj fields) k = objLookup fields k := fun _ => rfl
  simp [requestUI5Type, hmc, hobj, exceptBind_ok, exceptPure, inOp, hg, hT, hF, hN, hQ, hu,
    jsToString, truthyOpt, truthy, facetsList]

theorem requestMetaContext_spec (container : JVal) (env : Env) (sPath : String) :
    requestMetaContext container env sPath = specMetaContextSkip container env sPath := by
  unfold requestMetaContext requestMetaContextT specMetaContextSkip
  split
  · rfl
  · rename_i s0 rest heq
    cases identPrefix s0 <;> simp only
    · rfl
    · rename_i nm
      cases findSetOrSingleton container nm <;> simp only
      · rfl
      · rename_i pr
        cases pr
        exact containerLoop_spec container env sPath rest _ _ _

/-! ### The claim theorems for the meta model -/

/-- **C1 (amended)**: for every absolute OData data path, `requestMetaContext`
resolves exactly as the amended claim describes: it splits the path on
slashes; looks the first segment (identifier possibly followed by `[` or `(`)
up as an EntitySet or Singleton by `Name` in the entity container, rejecting
with an error naming the missing set or singleton; follows subsequent
segments through `NavigationPropertyBindings` as long as they match,
appending `"/Target"` to the meta path for each; at the first non-binding
segment switches to the type, appending `"/EntityType"` for entity sets and
`"/Type"` for singletons; matches the remaining segments against the type's
`Properties` and `NavigationProperties`, rejecting with `Unknown property`
when a segment matches neither; resolves with a context at the accumulated
meta path — and, the amendment, a numeric index segment following each
matched segment is skipped without affecting the meta path (a path ending in
such an index resolves at the meta path accumulated so far).  Formally:
`requestMetaContext` equals the amended claim-level resolver
`specMetaContextSkip`, with no hypothesis on the path. -/
theorem claimC1_requestMetaContext_resolution
    (container : JVal) (env : Env) (sPath : String) :
    requestMetaContext container env sPath = specMetaContextSkip container env sPath :=
  requestMetaContext_spec container env sPath

/-- Counterexample to C1 as stated: on the indexed data path
`/TEAMS/0/Budget` (numeric index segments are what the method's own
documentation shows, e.g. `/TEAMS[0];list=0/TEAM_2_EMPLOYEES/0`), the claim's
literal procedure (`specMetaContext`) matches `'0'` against the type's
`Properties` and `NavigationProperties` and rejects with `Unknown property`,
while the code (`requestMetaContext`) skips the index and resolves. -/
theorem claimC1_counterexample_index :
    requestMetaContext Sample.tContainer Sample.tEnv "/TEAMS/0/Budget"
      = .ok "/EntitySets('TEAMS')/EntityType/Properties('Budget')"
    ∧ specMetaContext Sample.tContainer Sample.tEnv "/TEAMS/0/Budget"
      = .error (.error "Unknown property: c.Team/0: /TEAMS/0/Budget") :=
  ⟨rfl, rfl⟩

/-- **C2**: `requestCanonicalUrl` resolves with the concatenation of the
service root URL, the URI-encoded `Name` of the resolved entity set and the
key predicate derived from the entity type and the entity instance read from
the data; when the meta object resolved for the path has no `EntityType`
property, it rejects with an `Error` whose message begins with
`Not an entity`. -/
theorem claimC2_requestCanonicalUrl
    (container : JVal) (env : Env) (sServiceUrl sPath : String) (inst : JVal)
    (enc : String → String) (kp : JVal → JVal → String) (mp : String) (set : JVal)
    (hmc : requestMetaContext container env sPath = .ok mp)
    (hobj : requestObject env container mp = .ok set) :
    (∀ nm et ety,
      getJs set "EntityType" = some et → truthy et = true →
      getJs set "Name" = some (.str nm) →
      requestObject env container (mp ++ "/EntityType") = .ok ety →
      requestCanonicalUrl container env sServiceUrl sPath inst enc kp
        = .ok (sServiceUrl ++ enc nm ++ kp ety inst))
    ∧ (getJs set "EntityType" = none →
        requestCanonicalUrl container env sServiceUrl sPath inst enc kp
          = .error (.error ("Not an entity: " ++ sPath))
        ∧ strLeads ("Not an entity: " ++ sPath) "Not an entity" = true) := by
  constructor
  · intro nm et ety hET htr hnm hety
    simp [requestCanonicalUrl, hmc, hobj, exceptBind_ok, exceptPure, hET, htr, hnm, hety,
      truthyOpt, jsToString]
  · intro hET
    refine ⟨?_, ?_⟩
    · simp [requestCanonicalUrl, hmc, hobj, exceptBind_ok, exceptThrow, hET, truthyOpt]
    · induction sPath using String.rec
      rfl

/-- Witness for C2 at a concrete container and path, with the built URL
evaluated. -/
theorem claimC2_witness :
    requestCanonicalUrl Sample.tContainer Sample.tEnv "/serviceroot/" "/TEAMS"
      (.obj [("Team_Id", .str "TEAM_01")])
      (fun s => s) (fun _ inst => "(Team_Id='" ++ jsToString (getJs inst "Team_Id") ++ "')")
      = .ok "/serviceroot/TEAMS(Team_Id='TEAM_01')" := by
  have h := (claimC2_requestCanonicalUrl Sample.tContainer Sample.tEnv "/serviceroot/" "/TEAMS"
    (.obj [("Team_Id", .str "TEAM_01")])
    (fun s => s) (fun _ inst => "(Team_Id='" ++ jsToString (getJs inst "Team_Id") ++ "')")
    "/EntitySets('TEAMS')" Sample.tTeams (by rfl) (by rfl)).1 "TEAMS"
    (.obj [("QualifiedName", .str "c.Team")]) Sample.fullTeam
    (by rfl) (by rfl) (by rfl) (by rfl)
  exact h

/-- **C3** (amended: the supported-type map has twelve entries, not
thirteen).  For every property path resolving to a property descriptor whose
`Type` carries a qualified name in `mUi5TypeForEdmType`, whose `Facets` is
an array and whose `Nullable` is a boolean, `requestUI5Type` resolves with
the mapped UI5 type whose constraints are exactly the claim's derivation:
`Precision`/`Scale` to `precision`/`scale` for `Edm.Decimal`, `MaxLength` to
`maxLength` for `Edm.String`, no facet constraints for the other types,
`nullable = false` added when `Nullable` is false, and an undefined
constraints object when `Nullable` is true and no applicable facet is
present (`specConstraintsC3`). -/
theorem claimC3_requestUI5Type_constraints
    (container : JVal) (env : Env) (sPath mp : String)
    (fields : List (String × JVal)) (tyv : JVal) (q : String) (u : Ui5TypeEntry)
    (fs : List JVal) (nb : Bool)
    (hmc : requestMetaContext container env sPath = .ok mp)
    (hobj : requestObject env container mp = .ok (.obj fields))
    (hT : objLookup fields "Type" = some tyv)
    (hQ : getJs tyv "QualifiedName" = some (.str q))
    (hu : assocLookup mUi5TypeForEdmType q = some u)
    (hF : objLookup fields "Facets" = some (.arr fs))
    (hN : objLookup fields "Nullable" = some (.bool nb)) :
    requestUI5Type container env sPath = .ok ⟨u.type, specConstraintsC3 q fs nb⟩
    ∧ mUi5TypeForEdmType.length = 12 := by
  refine ⟨?_, rfl⟩
  rw [requestUI5Type_resolved container env sPath mp fields tyv q u fs nb
    hmc hobj hT hQ hu hF hN]
  rcases mUi5_facets_cases q u hu with ⟨hq, hu'⟩ | ⟨hq, hu'⟩ | ⟨⟨h1, h2⟩, hf⟩
  · subst hq; subst hu'
    have h := specC3_decimal fs nb
    cases nb <;> simp_all
  · subst hq; subst hu'
    have h := specC3_string fs nb
    cases nb <;> simp_all
  · rw [hf]
    have h := specC3_other q fs nb h1 h2
    cases nb <;> simp_all

/-- Counterexample for C3 as stated: the claim speaks of thirteen supported
primitive types, but `mUi5TypeForEdmType` has twelve entries
(`Edm.DateTimeOffset` is commented out in the source). -/
theorem claimC3_counterexample_thirteen :
    mUi5TypeForEdmType.length = 12 ∧ ¬ mUi5TypeForEdmType.length = 13 :=
  ⟨rfl, by decide⟩

/-- Witness for C3 at a concrete `Edm.Decimal` property, with the derived
constraints evaluated. -/
theorem claimC3_witness :
    (requestUI5Type Sample.tContainer Sample.tEnv "/TEAMS/Budget"
      = .ok ⟨"sap.ui.model.odata.type.Decimal",
          specConstraintsC3 "Edm.Decimal"
            [.obj [("Name", .str "Precision"), ("Value", .str "16")],
             .obj [("Name", .str "Scale"), ("Value", .str "2")]] true⟩)
    ∧ specConstraintsC3 "Edm.Decimal"
        [.obj [("Name", .str "Precision"), ("Value", .str "16")],
         .obj [("Name", .str "Scale"), ("Value", .str "2")]] true
      = some [("precision", some (.str "16")), ("scale", some (.str "2"))] :=
  ⟨(claimC3_requestUI5Type_constraints Sample.tContainer Sample.tEnv "/TEAMS/Budget"
      "/EntitySets('TEAMS')/EntityType/Properties('Budget')"
      [("Name", .str "Budget"),
       ("Type", .obj [("QualifiedName", .str "Edm.Decimal"), ("Name", .str "Decimal")]),
       ("Facets", .arr [.obj [("Name", .str "Precision"), ("Value", .str "16")],
                        .obj [("Name", .str "Scale"), ("Value", .str "2")]]),
       ("Nullable", .bool true)]
      (.obj [("QualifiedName", .str "Edm.Decimal"), ("Name", .str "Decimal")])
      "Edm.Decimal"
      ⟨"sap.ui.model.odata.type.Decimal", [("Precision", "precision"), ("Scale", "scale")]⟩
      [.obj [("Name", .str "Precision"), ("Value", .str "16")],
       .obj [("Name", .str "Scale"), ("Value", .str "2")]]
      true (by rfl) (by rfl) (by rfl) (by rfl) (by rfl) (by rfl) (by rfl)).1,
   by rfl⟩

/-- **C4**: `requestUI5Type` rejects exactly as described once the meta
context resolved to a property object: `No property` when any of `Type`,
`Facets`, `Nullable` is missing; `Unsupported EDM type` when the qualified
type name is not in the supported-type map; and it resolves with a type
object in every other outcome of the resolution. -/
theorem claimC4_requestUI5Type_rejections
    (container : JVal) (env : Env) (sPath mp : String) (fields : List (String × JVal))
    (hmc : requestMetaContext container env sPath = .ok mp)
    (hobj : requestObject env container mp = .ok (.obj fields)) :
    ((objLookup fields "Type" = none ∨ objLookup fields "Facets" = none
        ∨ objLookup fields "Nullable" = none) →
      requestUI5Type container env sPath = .error (.error ("No property: " ++ sPath))
      ∧ strLeads ("No property: " ++ sPath) "No property" = true)
    ∧ (∀ tyv fv nv, objLookup fields "Type" = some tyv →
        objLookup fields "Facets" = some fv → objLookup fields "Nullable" = some nv →
        assocLookup mUi5TypeForEdmType (jsToString (getJs tyv "QualifiedName")) = none →
        requestUI5Type container env sPath
          = .error (.error ("Unsupported EDM type: "
              ++ jsToString (getJs tyv "QualifiedName") ++ ": " ++ sPath))
        ∧ strLeads ("Unsupported EDM type: " ++ jsToString (getJs tyv "QualifiedName")
            ++ ": " ++ sPath) "Unsupported EDM type" = true)
    ∧ (∀ tyv fv nv u, objLookup fields "Type" = some tyv →
        objLookup fields "Facets" = some fv → objLookup fields "Nullable" = some nv →
        assocLookup mUi5TypeForEdmType (jsToString (getJs tyv "QualifiedName")) = some u →
        ∃ t, requestUI5Type container env sPath = .ok t) := by
  refine ⟨?_, ?_, ?_⟩
  · intro hmiss
    constructor
    · rcases hmiss with h | h | h <;>
        simp [requestUI5Type, hmc, hobj, exceptBind_ok, exceptThrow, inOp, getJs_obj, h]
    · exact strLeads_append_left "No property: " sPath "No property" (by rfl)
  · intro tyv fv nv hT hF hN hnolook
    constructor
    · simp [requestUI5Type, hmc, hobj, exceptBind_ok, exceptThrow, inOp, getJs_obj,
        hT, hF, hN, hnolook]
    · exact strLeads_append_left _ sPath "Unsupported EDM type"
        (strLeads_append_left _ ": " "Unsupported EDM type"
          (strLeads_append_left "Unsupported EDM type: " _ "Unsupported EDM type" (by rfl)))
  · intro tyv fv nv u hT hF hN hlook
    by_cases ht : truthyOpt (some nv) = true
    · refine ⟨⟨u.type, facetLoop u.facets (facetsList (objLookup fields "Facets")) none⟩, ?_⟩
      simp [requestUI5Type, hmc, hobj, exceptBind_ok, exceptPure, inOp, getJs_obj,
        hT, hF, hN, hlook, ht]
    · refine ⟨⟨u.type, setConstraint
        (facetLoop u.facets (facetsList (objLookup fields "Facets")) none)
        "nullable" (some (.bool false))⟩, ?_⟩
      simp [requestUI5Type, hmc, hobj, exceptBind_ok, exceptPure, inOp, getJs_obj,
        hT, hF, hN, hlook, ht]

/-- Witness for C4: a property of unsupported type `Edm.Stream` is rejected
with `Unsupported EDM type`, and a supported one resolves. -/
theorem claimC4_witness :
    requestUI5Type Sample.tContainer Sample.tEnv "/TEAMS/Raw"
      = .error (.error "Unsupported EDM type: Edm.Stream: /TEAMS/Raw") := by
  have h := (claimC4_requestUI5Type_rejections Sample.tContainer Sample.tEnv "/TEAMS/Raw"
    "/EntitySets('TEAMS')/EntityType/Properties('Raw')"
    [("Name", .str "Raw"),
     ("Type", .obj [("QualifiedName", .str "Edm.Stream"), ("Name", .str "Stream")]),
     ("Facets", .arr []), ("Nullable", .bool true)]
    (by rfl) (by rfl)).2.1
    (.obj [("QualifiedName", .str "Edm.Stream"), ("Name", .str "Stream")])
    (.arr []) (.bool true) (by rfl) (by rfl) (by rfl) (by rfl)
  exact h.1

/-- **C5** (amended): during path traversal, `requestObject` invokes the
lazy type load exactly on the encountered values that are non-array objects
with exactly one own enumerable key (`isPlaceholder`); `requestMetaContext`,
however, checks only `Object.keys(oProperty.Type).length === 1`, so it
loads exactly on the `Type` values with one own enumerable key — also for
single-element arrays and one-character strings. -/
theorem claimC5_lazy_load_conditions :
    (∀ (env : Env) (container : JVal) (p : String),
      (requestObjectT env container p).loads
        = (requestObjectT env container p).visited.filter isPlaceholder)
    ∧ (∀ (container : JVal) (env : Env) (p : String),
      (requestMetaContextT container env p).loads
        = (requestMetaContextT container env p).visited.filter
            (fun v => keysCount v == 1)) :=
  ⟨fun env c p => requestObjectT_loads env c p,
   fun c env p => requestMetaContextT_loads c env p⟩

/-- Counterexample for C5 as stated: in `requestMetaContext` a single-element
array `Type` triggers the lazy load, although it is not a non-array object
with one own enumerable key. -/
theorem claimC5_counterexample_array_type :
    (requestMetaContextT Sample.cContainer Sample.cEnv "/S/p/q").loads
      = [.arr [.str "x"]]
    ∧ ((requestMetaContextT Sample.cContainer Sample.cEnv "/S/p/q").loads.all
        isPlaceholder) = false :=
  ⟨rfl, rfl⟩

/-- **C6** (amended): `requestObject` rejects exactly with: `Not an absolute
path` when the resolved path is empty; `Unknown <segment>` when a segment
names an absent property or a `Property('Name')` segment finds no element
with that `Name`; `"<property>" is not an array` when a `Property('Name')`
segment addresses a non-array value; and — the amendment — a `TypeError`
when a segment is looked up with the `in` operator in a primitive value.  In
every other case the walk resolves with the object reached. -/
theorem claimC6_requestObject_rejections :
    (∀ (env : Env) (container : JVal),
      requestObject env container "" = .error (.error "Not an absolute path: "))
    ∧ (∀ (env : Env) (sPath seg : String) (rest : List String) (o : JVal) (e : JsErr),
        inOp (parseSegment seg).property o = .error e →
        (followPath env sPath (seg :: rest) o).result = .error e)
    ∧ (∀ (env : Env) (sPath seg : String) (rest : List String) (o : JVal),
        inOp (parseSegment seg).property o = .ok false →
        (followPath env sPath (seg :: rest) o).result
          = .error (.error ("Unknown " ++ seg ++ ": " ++ sPath)))
    ∧ (∀ (env : Env) (sPath seg : String) (rest : List String) (o : JVal)
        (nm : String) (xs : List JVal),
        inOp (parseSegment seg).property o = .ok true →
        (parseSegment seg).name = some nm →
        (getJs o (parseSegment seg).property).getD (.bool false) = .arr xs →
        findInArray xs "Name" nm = none →
        (followPath env sPath (seg :: rest) o).result
          = .error (.error ("Unknown " ++ seg ++ ": " ++ sPath)))
    ∧ (∀ (env : Env) (sPath seg : String) (rest : List String) (o : JVal) (nm : String),
        inOp (parseSegment seg).property o = .ok true →
        (parseSegment seg).name = some nm →
        (∀ xs, (getJs o (parseSegment seg).property).getD (.bool false) ≠ .arr xs) →
        (followPath env sPath (seg :: rest) o).result
          = .error (.error ("\"" ++ (parseSegment seg).property
              ++ "\" is not an array: " ++ sPath)))
    ∧ (∀ (k s : String), inOp k (.str s)
        = .error (.typeError ("Cannot use 'in' operator to search for '" ++ k ++ "'")))
    ∧ (∀ (env : Env) (container : JVal) (p : String), p ≠ "" →
        (∃ v, requestObject env container p = .ok v)
        ∨ (∃ e, requestObject env container p = .error e ∧ followPathErrClass p e)) := by
  refine ⟨fun env c => rfl, ?_, ?_, ?_, ?_, fun k s => rfl, ?_⟩
  · intro env sPath seg rest o e h
    simp [followPath, h, errObj]
  · intro env sPath seg rest o h
    simp [followPath, h, errObj]
  · intro env sPath seg rest o nm xs h hnm harr hfind
    simp [followPath, h, hnm, harr, hfind, errObj]
  · intro env sPath seg rest o nm h hnm harr
    cases hv : (getJs o (parseSegment seg).property).getD (.bool false) <;>
      simp_all [followPath, errObj]
  · intro env container p hp
    have h := followPath_errClass env p (splitPath p) container
    simpa [requestObject, requestObjectT, beq_iff_eq, hp, errObj] using h

/-- Counterexample for C6 as stated: walking a segment into a primitive
string value rejects the promise with a `TypeError`, whose message matches
none of the three message shapes of the claim. -/
theorem claimC6_counterexample_typeerror :
    requestObject Sample.tEnv Sample.tContainer "/EntitySets('TEAMS')/Name/foo"
      = .error (.typeError "Cannot use 'in' operator to search for 'foo'")
    ∧ strLeads "Cannot use 'in' operator to search for 'foo'" "Not an absolute path" = false
    ∧ strLeads "Cannot use 'in' operator to search for 'foo'" "Unknown" = false
    ∧ strHasSub "Cannot use 'in' operator to search for 'foo'" "is not an array" = false :=
  ⟨rfl, rfl, rfl, rfl⟩

/-- Witness for C6 at a concrete non-empty path. -/
theorem claimC6_witness :
    (∃ v, requestObject Sample.tEnv Sample.tContainer "/EntitySets('TEAMS')" = .ok v)
    ∨ (∃ e, requestObject Sample.tEnv Sample.tContainer "/EntitySets('TEAMS')" = .error e
        ∧ followPathErrClass "/EntitySets('TEAMS')" e) :=
  claimC6_requestObject_rejections.2.2.2.2.2.2 Sample.tEnv Sample.tContainer
    "/EntitySets('TEAMS')" (by decide)

end OData

namespace RTA

open OData (upsert assocLookup)

/-! ### Reveal-computation lemmas (C7) -/

theorem invisibleToReveal_eq (acc : RevealData) (e : InvisibleElement) :
    invisibleToReveal acc e
      = if passesRevealChecks e then
          ⟨acc.elements ++ [e], acc.controlTypeNames ++
            (match e.controlTypeName with
             | some n => [n]
             | none => [])⟩
        else acc := by
  obtain ⟨id, ho, hr, corc, hch, rcs, ps, ctn⟩ := e
  simp only [invisibleToReveal, passesRevealChecks]
  cases ho <;> cases hr <;> cases hch <;> cases corc <;> simp

theorem foldl_invisibleToReveal (elems : List InvisibleElement) :
    ∀ acc : RevealData,
      elems.foldl invisibleToReveal acc
        = ⟨acc.elements ++ elems.filter passesRevealChecks,
           acc.controlTypeNames ++ (elems.filter passesRevealChecks).filterMap
             (fun e => e.controlTypeName)⟩ := by
  induction elems with
  | nil => intro acc; simp
  | cons e elems ih =>
    intro acc
    rw [List.foldl_cons, invisibleToReveal_eq]
    by_cases hp : passesRevealChecks e
    · cases hc : e.controlTypeName <;>
        simp [hp, hc, ih, List.filter_cons, List.filterMap_cons]
    · simp [hp, ih, List.filter_cons, List.filterMap_cons]

theorem assocLookup_upsert_self {α : Type} :
    ∀ (l : List (String × α)) (k : String) (v : α),
      assocLookup (upsert l k v) k = some v := by
  intro l
  induction l with
  | nil => intro k v; simp [upsert, assocLookup]
  | cons p t ih =>
    intro k v
    cases p with
    | mk a b =>
      simp only [upsert]
      cases hb : (a == k) <;> simp [assocLookup, hb, ih]

theorem assocLookup_upsert_ne {α : Type} :
    ∀ (l : List (String × α)) (k k' : String) (v : α), (k == k') = false →
      assocLookup (upsert l k v) k' = assocLookup l k' := by
  intro l
  induction l with
  | nil => intro k k' v h; simp [upsert, assocLookup, h]
  | cons p t ih =>
    intro k k' v h
    cases p with
    | mk a b =>
      simp only [upsert]
      cases hb : (a == k)
      · simp [assocLookup, ih _ _ _ h]
      · have : a = k := beq_iff_eq.mp hb
        subst this
        simp [assocLookup, h]

theorem assocLookup_eq_none {α : Type} :
    ∀ (l : List (String × α)) (k : String), k ∉ l.map Prod.fst →
      assocLookup l k = none := by
  intro l
  induction l with
  | nil => intro k _; rfl
  | cons p t ih =>
    intro k h
    cases p with
    | mk a b =>
      simp only [List.map_cons, List.mem_cons] at h
      push_neg at h
      have : (a == k) = false := by
        simp [beq_iff_eq]
        exact fun hc => h.1 (by rw [hc])
      simp [assocLookup, this, ih k h.2]

theorem getRevealActionFromAggregations_eq (invisible : List InvisibleElement)
    (acc : List (String × RevealData)) (name : String) :
    getRevealActionFromAggregations invisible acc name
      = if (invisible.filter passesRevealChecks).isEmpty then acc
        else upsert acc name ⟨invisible.filter passesRevealChecks,
          (invisible.filter passesRevealChecks).filterMap (fun e => e.controlTypeName)⟩ := by
  unfold getRevealActionFromAggregations
  rw [foldl_invisibleToReveal]
  rcases hfe : invisible.filter passesRevealChecks with _ | ⟨x, xs⟩ <;> simp [hfe]

theorem getRevealActions_lookup :
    ∀ (aggs : List (String × List InvisibleElement))
      (acc : List (String × RevealData)) (k : String),
      (aggs.map Prod.fst).Nodup →
      assocLookup
          (aggs.foldl (fun acc pr => getRevealActionFromAggregations pr.2 acc pr.1) acc) k
        = match assocLookup aggs k with
          | some elems =>
            if (elems.filter passesRevealChecks).isEmpty then assocLookup acc k
            else some ⟨elems.filter passesRevealChecks,
              (elems.filter passesRevealChecks).filterMap (fun e => e.controlTypeName)⟩
          | none => assocLookup acc k := by
  intro aggs
  induction aggs with
  | nil => intro acc k _; rfl
  | cons pr rest ih =>
    intro acc k hnd
    cases pr with
    | mk k0 elems0 =>
      simp only [List.map_cons, List.nodup_cons] at hnd
      simp only [List.foldl_cons]
      rw [getRevealActionFromAggregations_eq]
      rw [ih _ k hnd.2]
      cases hb : (k0 == k)
      · by_cases hfe : (elems0.filter passesRevealChecks).isEmpty
        · simp [hfe, assocLookup, hb]
        · simp [hfe, assocLookup, hb, assocLookup_upsert_ne _ _ _ _ hb]
      · have hk : k0 = k := beq_iff_eq.mp hb
        subst hk
        have hnone : assocLookup rest k0 = none := assocLookup_eq_none rest k0 hnd.1
        rw [hnone]
        by_cases hfe : (elems0.filter passesRevealChecks).isEmpty
        · simp [hfe, assocLookup, hb]
        · simp [hfe, assocLookup, hb, assocLookup_upsert_self]

theorem mem_dedupKeys : ∀ (l : List String) (k : String), k ∈ dedupKeys l ↔ k ∈ l := by
  intro l
  induction l with
  | nil => intro k; simp [dedupKeys]
  | cons a t ih =>
    intro k
    simp only [dedupKeys, List.mem_cons, List.mem_filter]
    constructor
    · rintro (h | ⟨h, _⟩)
      · exact .inl h
      · exact .inr ((ih k).mp h)
    · rintro (h | h)
      · exact .inl h
      · by_cases hk : k = a
        · exact .inl hk
        · exact .inr ⟨(ih k).mpr h, by simp [hk]⟩

theorem assocLookup_keyFun {β : Type} (f : String → β) :
    ∀ (keys : List String) (k : String),
      assocLookup (keys.map (fun k0 => (k0, f k0))) k
        = if k ∈ keys then some (f k) else none := by
  intro keys
  induction keys with
  | nil => intro k; simp [assocLookup]
  | cons a t ih =>
    intro k
    simp only [List.map_cons, assocLookup]
    cases hb : (a == k)
    · have : ¬(k = a) := fun hc => by simp [hc] at hb
      simp [ih, this]
    · have : a = k := beq_iff_eq.mp hb
      subst this
      simp

theorem assocLookup_isSome_iff {α : Type} :
    ∀ (l : List (String × α)) (k : String),
      (assocLookup l k).isSome ↔ k ∈ l.map Prod.fst := by
  intro l
  induction l with
  | nil => intro k; simp [assocLookup]
  | cons p t ih =>
    intro k
    cases p with
    | mk a b =>
      simp only [assocLookup, List.map_cons, List.mem_cons]
      cases hb : (a == k)
      · have : ¬(k = a) := fun hc => by simp [hc] at hb
        simp [ih, this]
      · have : a = k := beq_iff_eq.mp hb
        subst this
        simp

theorem mergeActions_lookup (r : List (String × RevealData))
    (d c : List (String × String)) (k : String) :
    assocLookup (mergeActions r d c) k
      = if k ∈ r.map Prod.fst ++ d.map Prod.fst ++ c.map Prod.fst then
          some ⟨assocLookup r k, assocLookup d k, assocLookup c k⟩
        else none := by
  unfold mergeActions
  rw [assocLookup_keyFun]
  by_cases hm : k ∈ r.map Prod.fst ++ d.map Prod.fst ++ c.map Prod.fst
  · rw [if_pos ((mem_dedupKeys _ k).mpr hm), if_pos hm]
  · rw [if_neg (fun hc => hm ((mem_dedupKeys _ k).mp hc)), if_neg hm]

/-- **C7**: `_getActions` resolves with a map keyed by aggregation name whose
entries combine the reveal, add-via-delegate and custom-add computations
merged per aggregation; an aggregation carries a `reveal` entry exactly when
at least one of its invisible elements passed the checks of
`_invisibleToReveal` (reveal action with change type, available change
handler, required stable IDs). -/
theorem claimC7_getActions_merge_and_reveal
    (aggs : List (String × List InvisibleElement))
    (d c : List (String × String)) (k : String)
    (hnd : (aggs.map Prod.fst).Nodup) :
    (∀ e, assocLookup (getActions aggs d c) k = some e →
      e = ⟨assocLookup (getRevealActions aggs) k, assocLookup d k, assocLookup c k⟩)
    ∧ ((assocLookup (getActions aggs d c) k).isSome ↔
        (assocLookup (getRevealActions aggs) k).isSome
          ∨ (assocLookup d k).isSome ∨ (assocLookup c k).isSome)
    ∧ (assocLookup (getRevealActions aggs) k
        = match assocLookup aggs k with
          | some elems =>
            if (elems.filter passesRevealChecks).isEmpty then none
            else some ⟨elems.filter passesRevealChecks,
              (elems.filter passesRevealChecks).filterMap (fun e => e.controlTypeName)⟩
          | none => none)
    ∧ ((∃ e, assocLookup (getActions aggs d c) k = some e ∧ e.reveal.isSome) ↔
        (∃ elems, assocLookup aggs k = some elems
          ∧ (elems.filter passesRevealChecks).isEmpty = false)) := by
  have hrev : assocLookup (getRevealActions aggs) k
      = match assocLookup aggs k with
        | some elems =>
          if (elems.filter passesRevealChecks).isEmpty then none
          else some ⟨elems.filter passesRevealChecks,
            (elems.filter passesRevealChecks).filterMap (fun e => e.controlTypeName)⟩
        | none => none := by
    have h := getRevealActions_lookup aggs [] k hnd
    simpa [getRevealActions, assocLookup] using h
  have hmerge := mergeActions_lookup (getRevealActions aggs) d c k
  refine ⟨?_, ?_, hrev, ?_⟩
  · intro e he
    rw [show getActions aggs d c = mergeActions (getRevealActions aggs) d c from rfl,
      hmerge] at he
    split_ifs at he with hm
    all_goals exact (Option.some.inj he).symm
  · rw [show getActions aggs d c = mergeActions (getRevealActions aggs) d c from rfl,
      hmerge]
    by_cases hm : k ∈ (getRevealActions aggs).map Prod.fst
        ++ d.map Prod.fst ++ c.map Prod.fst
    · simp only [if_pos hm, Option.isSome_some, true_iff]
      rcases List.mem_append.mp hm with hm1 | hm2
      · rcases List.mem_append.mp hm1 with hm1a | hm1b
        · exact .inl ((assocLookup_isSome_iff _ k).mpr hm1a)
        · exact .inr (.inl ((assocLookup_isSome_iff _ k).mpr hm1b))
      · exact .inr (.inr ((assocLookup_isSome_iff _ k).mpr hm2))
    · rw [if_neg hm]
      simp only [Option.isSome_none, Bool.false_eq_true, false_iff, not_or]
      refine ⟨?_, ?_, ?_⟩ <;> intro hc
      · exact hm (List.mem_append.mpr (.inl (List.mem_append.mpr
          (.inl ((assocLookup_isSome_iff _ k).mp hc)))))
      · exact hm (List.mem_append.mpr (.inl (List.mem_append.mpr
          (.inr ((assocLookup_isSome_iff _ k).mp hc)))))
      · exact hm (List.mem_append.mpr (.inr ((assocLookup_isSome_iff _ k).mp hc)))
  · constructor
    · rintro ⟨e, he, hrv⟩
      rw [show getActions aggs d c = mergeActions (getRevealActions aggs) d c from rfl,
        hmerge] at he
      split_ifs at he with hm
      · have he' : e = ⟨assocLookup (getRevealActions aggs) k,
            assocLookup d k, assocLookup c k⟩ := (Option.some.inj he).symm
        subst he'
        simp only at hrv
        rw [hrev] at hrv
        rcases hagg : assocLookup aggs k with _ | elems
        · rw [hagg] at hrv; simp at hrv
        · rw [hagg] at hrv
          refine ⟨elems, rfl, ?_⟩
          by_cases hfe : (elems.filter passesRevealChecks).isEmpty
          · simp [hfe] at hrv
          · simpa using hfe
    · rintro ⟨elems, hagg, hfe⟩
      have hrvs : (assocLookup (getRevealActions aggs) k).isSome := by
        rw [hrev, hagg]
        simp [hfe]
      have hmem : k ∈ (getRevealActions aggs).map Prod.fst
          ++ d.map Prod.fst ++ c.map Prod.fst := by
        refine List.mem_append.mpr (.inl (List.mem_append.mpr (.inl ?_)))
        exact (assocLookup_isSome_iff _ k).mp hrvs
      refine ⟨⟨assocLookup (getRevealActions aggs) k,
        assocLookup d k, assocLookup c k⟩, ?_, hrvs⟩
      rw [show getActions aggs d c = mergeActions (getRevealActions aggs) d c from rfl,
        hmerge, if_pos hmem]

/-- Witness for C7 at a concrete aggregation map: only the element passing
the reveal checks appears, together with its control type name. -/
theorem claimC7_witness :
    (assocLookup (getRevealActions sampleAggs) "items"
      = match assocLookup sampleAggs "items" with
        | some elems =>
          if (elems.filter passesRevealChecks).isEmpty then none
          else some ⟨elems.filter passesRevealChecks,
            (elems.filter passesRevealChecks).filterMap (fun e => e.controlTypeName)⟩
        | none => none)
    ∧ assocLookup (getRevealActions sampleAggs) "items"
        = some ⟨[⟨"el1", true, true, false, true, true, true, some "Field"⟩], ["Field"]⟩ :=
  ⟨(claimC7_getActions_merge_and_reveal sampleAggs [("items", "delegate")] [] "items"
      (by decide)).2.2.1,
   by rfl⟩

/-! ### `_createCommands` ordering (C8) -/

theorem foldl_append_commands :
    ∀ (l : List SelectedElement) (acc : List RtaCommand),
      l.foldl (fun acc e => acc ++ commandsForSelectedElement e) acc
        = acc ++ l.flatMap commandsForSelectedElement := by
  intro l
  induction l with
  | nil => intro acc; simp
  | cons e l ih => intro acc; simp [ih]

/-- **C8**: `_createCommands` sorts the selected elements in descending order
of their labels and creates the commands sequentially in that order inside
one composite command: an `invisible` selection contributes a reveal command
followed, when a move is needed, by a move command; a `delegate` selection
an optional add-library command followed by an `addDelegateProperty`
command; a `custom` selection a `customAdd` command; an empty selection
creates no composite command. -/
theorem claimC8_createCommands_order (sel : List SelectedElement) :
    ∃ sorted : List SelectedElement,
      sorted.Perm sel ∧ List.Sorted labelDescRel sorted
      ∧ (sel = [] → createCommands sel = none)
      ∧ (sel ≠ [] → createCommands sel
          = some (sorted.flatMap commandsForSelectedElement)) := by
  refine ⟨sel.insertionSort labelDescRel, List.perm_insertionSort _ _,
    List.sorted_insertionSort _ _, ?_, ?_⟩
  · intro h; subst h; rfl
  · intro h
    have hl : 0 < sel.length := List.length_pos.mpr h
    simp [createCommands, hl, foldl_append_commands]

/-- Witness for C8 at a singleton selection of an invisible element needing a
move. -/
theorem claimC8_witness :
    createCommands [⟨"lbl", .invisible, true, false⟩]
      = some [.reveal "lbl", .move "lbl"] := by
  obtain ⟨sorted, hp, _, _, h2⟩ :=
    claimC8_createCommands_order [⟨"lbl", .invisible, true, false⟩]
  have hs : sorted = [⟨"lbl", .invisible, true, false⟩] := List.perm_singleton.mp hp
  rw [h2 (by simp), hs]
  rfl

/-- **C9**: `isEnabled` returns false whenever more than one element overlay
is passed, regardless of the sibling/child flag, the aggregation name, the
available actions, cached elements or extensibility information. -/
theorem claimC9_isEnabled_multiselection (st : PluginState) (bOverlayIsSibling : Bool)
    (overlays : List OverlayE) (sAggregationName : String)
    (h : 1 < overlays.length) :
    isEnabled st bOverlayIsSibling overlays sAggregationName = false := by
  simp [isEnabled, h]

/-- Witness for C9: two overlays with every other input favourable. -/
theorem claimC9_witness :
    isEnabled ⟨fun _ => some 2, fun _ => true⟩ false
      [⟨true, fun _ _ => some ⟨some 3, true, true⟩⟩,
       ⟨true, fun _ _ => some ⟨some 3, true, true⟩⟩] "items" = false :=
  claimC9_isEnabled_multiselection ⟨fun _ => some 2, fun _ => true⟩ false
    [⟨true, fun _ _ => some ⟨some 3, true, true⟩⟩,
     ⟨true, fun _ _ => some ⟨some 3, true, true⟩⟩] "items" (by decide)

/-- **C10**: `getMenuItems` returns at most one top-level menu item — exactly
one when one of the four availability/aggregation cases of the source
applies, and an empty array otherwise; it never returns separate top-level
items for the sibling case and the child case simultaneously. -/
theorem claimC10_getMenuItems_single_item (childElems sibElems : List AggregationElements)
    (availForChildren availForSibling : Bool) :
    (getMenuItems childElems sibElems availForChildren availForSibling).length ≤ 1
    ∧ ((getMenuItems childElems sibElems availForChildren availForSibling).length = 1 ↔
        ((availForSibling && (!availForChildren || !(childElems.length > 0 : Bool))) = true
          ∨ (!availForSibling && availForChildren
              && !(childElems.length > 1 : Bool)) = true
          ∨ (!availForSibling && availForChildren
              && (childElems.length > 1 : Bool)) = true
          ∨ (availForChildren && availForSibling && (childElems.length > 0 : Bool)
              && (sibElems.length > 0 : Bool)) = true)) := by
  unfold getMenuItems
  split_ifs with h1 h2 h3 h4 <;> simp_all

end RTA
